import Mathlib

/-!
# Nvy: message dispatch, window procedure and shutdown of `src/main.cpp`

A shallow embedding of the parts of `main.cpp` that route decoded RPC
messages (`ProcessMPackMessage`), ask the editor for a resize
(`SendResizeIfNecessary`), translate window messages into editor commands
(`WndProc`), build the editor's command line from the program's arguments
and report the child's diagnostics at shutdown (both in `wWinMain`).

Calls into `nvim/nvim.h` and `renderer/renderer.h` are recorded, in call
order, in a list of `Effect`s; what such a call does to the `Nvim` or
`Renderer` object it receives is a parameter (`Externals`).
-/

namespace Nvy

/-! ## Data model -/

/-- The request kinds the `switch` of `ProcessMPackMessage` distinguishes
(`enum NvimRequest`, main.cpp lines 61 and 76 to 79). -/
inductive NvimRequest
  | vim_get_api_info
  | nvim_input
  | nvim_input_mouse
  | nvim_command
  | nvim_get_option_value
  deriving DecidableEq, Repr

/-- Modelled from the spec: the `Nvim` connection record of `nvim/nvim.h`, of
which `main.cpp` reads `next_msg_id`, `msg_id_to_method` and `exit_code`.
The correlation table is "a map from outgoing message id to the semantic
request kind"; it is kept as an association list. -/
structure Nvim where
  next_msg_id : Nat
  msg_id_to_method : List (Nat × NvimRequest)
  exit_code : Int
  deriving DecidableEq, Repr

/-- The value of `Nvim nvim {}` (main.cpp line 540). -/
def Nvim.zero : Nvim :=
  { next_msg_id := 0, msg_id_to_method := [], exit_code := 0 }

/-- Modelled from the spec: `RegisterRequest` of `nvim.cpp`. "Every Request
allocates a new MessageId via the Connection's counter and registers it in
the Correlation Table with its semantic kind": the id handed out is the
current value of `next_msg_id`, which then moves on by one. -/
def RegisterRequest (nvim : Nvim) (request : NvimRequest) : Nat × Nvim :=
  (nvim.next_msg_id,
   { nvim with
     next_msg_id := nvim.next_msg_id + 1
     msg_id_to_method := nvim.msg_id_to_method ++ [(nvim.next_msg_id, request)] })

/-- The entry `msg_id_to_method[msg_id]`, when there is one. -/
def Nvim.method (nvim : Nvim) (msg_id : Nat) : Option NvimRequest :=
  nvim.msg_id_to_method.lookup msg_id

/-- Every registered id has been handed out already: it lies below
`next_msg_id`. -/
def Nvim.WellFormed (nvim : Nvim) : Prop :=
  ∀ p ∈ nvim.msg_id_to_method, p.1 < nvim.next_msg_id

instance (nvim : Nvim) : Decidable nvim.WellFormed := by
  unfold Nvim.WellFormed
  infer_instance

/-- Mouse buttons named in `main.cpp` (`enum class MouseButton`). -/
inductive MouseButton
  | Left
  | Right
  | Middle
  | Wheel
  deriving DecidableEq, Repr

/-- Mouse actions named in `main.cpp` (`enum class MouseAction`). -/
inductive MouseAction
  | Press
  | Drag
  | Release
  | MouseWheelUp
  | MouseWheelDown
  deriving DecidableEq, Repr

/-- Grid coordinates (`struct GridPoint` of `renderer/renderer.h`); the
structured bindings `auto [row, col]` on lines 268, 321 and 362 read the
members in this order. -/
structure GridPoint where
  row : Int
  col : Int
  deriving DecidableEq, Repr

/-- Pixel extent (`struct PixelSize`), read through `.width` and `.height`. -/
structure PixelSize where
  width : Int
  height : Int
  deriving DecidableEq, Repr

/-- Grid extent (`struct GridSize`); the structured bindings
`auto [rows, cols]` on lines 142, 153, 335, 600 and 615 read the members in
this order. -/
structure GridSize where
  rows : Int
  cols : Int
  deriving DecidableEq, Repr

/-- A point with `LONG` coordinates (`struct POINT`). -/
structure POINT where
  x : Int
  y : Int
  deriving DecidableEq, Repr

/-- A value of type `float`, an IEEE 754 binary32 number, by the rational it
stands for. The sign of a zero is not kept: none of the operations that
`main.cpp` applies to its floats tells the two zeros apart. -/
inductive Float32
  | finite (value : ℚ)
  | infinite (negative : Bool)
  | nan
  deriving DecidableEq, Repr

/-- The integer nearest to `x`, the even one of the two when `x` lies half
way between them. -/
def round_half_even (x : ℚ) : Int :=
  if x - ⌊x⌋ < 1 / 2 then ⌊x⌋
  else if 1 / 2 < x - ⌊x⌋ then ⌊x⌋ + 1
  else if ⌊x⌋ % 2 = 0 then ⌊x⌋
  else ⌊x⌋ + 1

/-- The search behind `ulp_exponent`: the first `k`, going up from the one
given, with `abs q < 2 ^ (k + 24)`; after `fuel` steps the search stops. -/
def ulp_exponent_from (q : ℚ) : Nat → Int → Int
  | 0, k => k
  | fuel + 1, k => if |q| < 2 ^ (k + 24) then k else ulp_exponent_from q fuel (k + 1)

/-- The exponent `k` of the spacing `2 ^ k` of the binary32 numbers around
`q`: from -149 for the subnormal numbers up to 104 for the largest ones, and
otherwise the one that leaves `q / 2 ^ k` 24 bits before the point. -/
def ulp_exponent (q : ℚ) : Int := ulp_exponent_from q 253 (-149)

/-- The binary32 value of the real result `q` of an operation: round to
nearest, ties to even, and infinity from `2 ^ 128` on. -/
def Float32.round (q : ℚ) : Float32 :=
  if 2 ^ 128 ≤ |(round_half_even (q / 2 ^ ulp_exponent q) : ℚ) * 2 ^ ulp_exponent q| then
    .infinite (decide (q < 0))
  else
    .finite ((round_half_even (q / 2 ^ ulp_exponent q) : ℚ) * 2 ^ ulp_exponent q)

/-- The conversion of an integer to `float`. -/
def Float32.of_int (i : Int) : Float32 := Float32.round i

def Float32.neg : Float32 → Float32
  | .finite a => .finite (-a)
  | .infinite s => .infinite (!s)
  | .nan => .nan

def Float32.abs : Float32 → Float32
  | .finite a => .finite |a|
  | .infinite _ => .infinite false
  | .nan => .nan

def Float32.add : Float32 → Float32 → Float32
  | .finite a, .finite b => Float32.round (a + b)
  | .finite _, .infinite s => .infinite s
  | .infinite s, .finite _ => .infinite s
  | .infinite s, .infinite t => if s = t then .infinite s else .nan
  | .nan, _ => .nan
  | _, .nan => .nan

def Float32.sub (a b : Float32) : Float32 := a.add b.neg

def Float32.mul : Float32 → Float32 → Float32
  | .finite a, .finite b => Float32.round (a * b)
  | .finite a, .infinite s => if a = 0 then .nan else .infinite (s != decide (a < 0))
  | .infinite s, .finite b => if b = 0 then .nan else .infinite (s != decide (b < 0))
  | .infinite s, .infinite t => .infinite (s != t)
  | .nan, _ => .nan
  | _, .nan => .nan

def Float32.div : Float32 → Float32 → Float32
  | .finite a, .finite b =>
    if b = 0 then (if a = 0 then .nan else .infinite (decide (a < 0)))
    else Float32.round (a / b)
  | .finite _, .infinite _ => .finite 0
  | .infinite s, .finite b => .infinite (s != decide (b < 0))
  | .infinite _, .infinite _ => .nan
  | .nan, _ => .nan
  | _, .nan => .nan

/-- `a < b`; false when either is not a number. -/
def Float32.lt : Float32 → Float32 → Bool
  | .finite a, .finite b => decide (a < b)
  | .finite _, .infinite s => !s
  | .infinite s, .finite _ => s
  | .infinite s, .infinite t => s && !t
  | .nan, _ => false
  | _, .nan => false

/-- `a <= b`; false when either is not a number. -/
def Float32.le : Float32 → Float32 → Bool
  | .finite a, .finite b => decide (a ≤ b)
  | .finite _, .infinite s => !s
  | .infinite s, .finite _ => s
  | .infinite s, .infinite t => s || !t
  | .nan, _ => false
  | _, .nan => false

/-- The rationals that are binary32 numbers up to the range of the exponent:
an integer of at most 24 bits times a power of two from `2 ^ (-149)` on. -/
def Float32.Representable (r : ℚ) : Prop :=
  ∃ m k : Int, -149 ≤ k ∧ |m| ≤ 2 ^ 24 ∧ r = m * 2 ^ k

/-- The number of turns of `for (int i = 0; i < bound; ++i)` with a `float`
bound that is a number. (`main.cpp` has the bound `abs(scroll_amount)` with
`scroll_amount` 1 or -1; for an infinite bound, where the loop would not
end, the value is 0.) -/
def for_turns : Float32 → Nat
  | .finite q => ⌈q⌉₊
  | _ => 0

/-- The result of `MPackExtractMessageResult(tree)` (line 55): the message
type with the fields `main.cpp` reads for it. `Node` stands for
`mpack_node_t`. -/
inductive MPackMessageResult (Node : Type)
  | Response (msg_id : Nat) (params : Node)
  | Notification (name : String) (params : Node)
  | Request (msg_id : Nat) (method : String) (params : Node)
  deriving DecidableEq, Repr

/-- The functions of `nvim/nvim.h` that `main.cpp` calls on the connection
and that write to the editor or to the child process. -/
inductive NvimCall
  | NvimInitialize
  | NvimShutdown
  | NvimSendResponse (msg_id : Nat)
  | NvimGetOptionValue (name : String)
  | NvimSendInput (input_chars : String)
  | NvimSendChar (input_char : Nat)
  | NvimSendSysChar (input_char : Nat)
  | NvimSendMouseInput (button : MouseButton) (action : MouseAction) (mouse_row mouse_col : Int)
  | NvimSendResize (rows cols : Int)
  | NvimSetFocus
  | NvimKillFocus
  | NvimQuit
  deriving DecidableEq, Repr

/-- The functions of `renderer/renderer.h` that `main.cpp` calls and that
change the renderer. -/
inductive RendererCall (Node : Type)
  | RendererRedraw (params : Node) (start_maximized : Bool)
  | RendererUpdateGuiFont (guifont : List Nat) (strlen : Nat)
  | RendererShutdown
  | RendererUpdateFont (font_size : Float32)
  deriving DecidableEq, Repr

/-- One observable action of `main.cpp`, in the order it is performed. -/
inductive Effect (Node : Type)
  | nvim (call : NvimCall)
  | renderer (call : RendererCall Node)
  | SetWindowPos (x y cx cy : Int)
  | DefWindowProc
  /-- `MessageBoxA(NULL, msg, caption, ...)`; `text` is the content of the
  block `msg` points to, its terminating zero included. -/
  | MessageBoxA (text : List Nat) (caption : String)
  | UnregisterClass
  | DestroyWindow
  deriving DecidableEq, Repr

/-- The code outside `main.cpp` that the embedded functions depend on.
`Renderer` stands for `struct Renderer`. -/
structure Externals (Node Renderer : Type) where
  /-- What a call of `nvim/nvim.h` leaves in the connection record. -/
  nvim_call : Nvim → NvimCall → Nvim
  /-- What a call of `renderer/renderer.h` leaves in the renderer. -/
  renderer_call : Renderer → RendererCall Node → Renderer
  /-- The `Vec<char>` that `NvimParseOptionValueStr` fills from `params`. -/
  NvimParseOptionValueStr : Nvim → Node → List Nat
  /-- The window size for a grid of `rows` by `cols` cells. -/
  RendererGridToPixelSize : Renderer → Int → Int → PixelSize
  /-- The grid cell under a client-area position. -/
  RendererCursorToGridPoint : Renderer → Int → Int → GridPoint
  /-- The member `grid_initialized` of the renderer. -/
  grid_initialized : Renderer → Bool
  /-- The member `grid_rows` of the renderer. -/
  grid_rows : Renderer → Int
  /-- The member `grid_cols` of the renderer. -/
  grid_cols : Renderer → Int
  /-- The member `last_requested_font_size` of the renderer. -/
  last_requested_font_size : Renderer → Float32
  /-- The member `pixel_size` of the renderer. -/
  pixel_size : Renderer → PixelSize
  /-- The grid that fits a client area of `width` by `height` pixels. -/
  RendererPixelsToGridSize : Renderer → Int → Int → GridSize
  /-- What `ScreenToClient(hwnd, &point)` leaves in `point`. -/
  ScreenToClient : Nat → POINT → POINT

/-- The fields of `struct Context` (lines 9 to 30); `nvim` and `renderer` hold
the objects the two pointers refer to. -/
structure Context (Renderer : Type) where
  start_maximized : Bool
  start_fullscreen : Bool
  start_rows : Int
  start_cols : Int
  disable_fullscreen : Bool
  hwnd : Nat
  nvim : Nvim
  renderer : Renderer
  dead_char_pending : Bool
  xbuttons : Bool × Bool
  buffered_scroll_amount : Float32
  cached_cursor_grid_pos : GridPoint
  saved_window_placement : Nat
  saved_dpi_scaling : Nat
  saved_window_width : Nat
  saved_window_height : Nat
  enable_cursor_timeout : Bool
  cursor_timer_id : Nat
  cursor_timeout_in_ms : Nat
  hkl : Nat
  deriving DecidableEq

/-- How a call can stop short of returning. -/
inductive Fault
  /-- The `assert` on line 59 does not hold. -/
  | assertion
  /-- The `switch` on line 60 indexes `msg_id_to_method` with an id that has
  no entry. The source makes no check for this and defines no result; the
  embedding stops here. -/
  | no_entry
  deriving DecidableEq, Repr

/-- Modelled from the spec: `MPackMatchString(node, str)` of the message
helpers; handlers are "keyed by method name", so a node matches when its
string is the given name. -/
def MPackMatchString (node : String) (str_to_match : String) : Bool :=
  node == str_to_match

/-- The length `strlen` finds in a character buffer: the bytes before the
first zero byte. -/
def strlen (buffer : List Nat) : Nat :=
  (buffer.takeWhile (fun c => c ≠ 0)).length

section Dispatch

variable {Node Renderer : Type}

/-- A call `f(context->nvim, ...)`: the connection after it, and its record. -/
def callNvim (ext : Externals Node Renderer) (context : Context Renderer) (call : NvimCall) :
    Context Renderer × List (Effect Node) :=
  ({ context with nvim := ext.nvim_call context.nvim call }, [Effect.nvim call])

/-- A call `f(context->renderer, ...)`: the renderer after it, and its record. -/
def callRenderer (ext : Externals Node Renderer) (context : Context Renderer)
    (call : RendererCall Node) : Context Renderer × List (Effect Node) :=
  ({ context with renderer := ext.renderer_call context.renderer call }, [Effect.renderer call])

/-- `ProcessMPackMessage` (lines 54 to 97), on the extracted `result`. -/
def ProcessMPackMessage (ext : Externals Node Renderer) (context : Context Renderer)
    (result : MPackMessageResult Node) :
    Except Fault (Context Renderer × List (Effect Node)) :=
  match result with
  | .Response msg_id params =>
    if msg_id ≤ context.nvim.next_msg_id then
      match context.nvim.method msg_id with
      | none => .error .no_entry
      | some .nvim_get_option_value =>
        let guifont_buffer := ext.NvimParseOptionValueStr context.nvim params
        if guifont_buffer ≠ [] then
          let (c1, e1) := callRenderer ext context
            (.RendererUpdateGuiFont guifont_buffer (strlen guifont_buffer))
          if c1.start_rows ≠ 0 ∧ c1.start_cols ≠ 0 then
            let start_size := ext.RendererGridToPixelSize c1.renderer c1.start_rows c1.start_cols
            .ok (c1, e1 ++ [Effect.SetWindowPos 0 0 start_size.width start_size.height])
          else
            .ok (c1, e1)
        else
          .ok (context, [])
      | some .vim_get_api_info => .ok (context, [])
      | some .nvim_input => .ok (context, [])
      | some .nvim_input_mouse => .ok (context, [])
      | some .nvim_command => .ok (context, [])
    else
      .error .assertion
  | .Notification name params =>
    if MPackMatchString name "redraw" then
      .ok (callRenderer ext context (.RendererRedraw params context.start_maximized))
    else
      .ok (context, [])
  | .Request msg_id method _ =>
    if MPackMatchString method "vimenter" then
      let (c1, e1) := callNvim ext context (.NvimSendResponse msg_id)
      let (c2, e2) := callNvim ext c1 (.NvimGetOptionValue "guifont")
      .ok (c2, e1 ++ e2)
    else
      .ok (context, [])

/-- `SendResizeIfNecessary` (lines 99 to 107): the value returned, the context
after the call and what the call did. -/
def SendResizeIfNecessary (ext : Externals Node Renderer) (context : Context Renderer)
    (rows cols : Int) : Bool × Context Renderer × List (Effect Node) :=
  if ext.grid_initialized context.renderer = false then
    (false, context, [])
  else if rows ≠ ext.grid_rows context.renderer ∨ cols ≠ ext.grid_cols context.renderer then
    let (c1, e1) := callNvim ext context (.NvimSendResize rows cols)
    (true, c1, e1)
  else
    (false, context, [])

end Dispatch

/-! ## The window procedure -/

/-- `LOWORD`: the low 16 bits. -/
def LOWORD (l : Nat) : Nat := l % 65536

/-- `HIWORD`: bits 16 to 31. -/
def HIWORD (l : Nat) : Nat := (l / 65536) % 65536

/-- A 16-bit word read as a signed `SHORT`. -/
def SHORT (w : Nat) : Int :=
  if w % 65536 < 32768 then (w % 65536 : Nat) else ((w % 65536 : Nat) : Int) - 65536

/-- The pair of `SHORT`s of `struct POINTS`. -/
structure POINTS where
  x : Int
  y : Int
  deriving DecidableEq, Repr

/-- `MAKEPOINTS(lparam)`: x from the low word, y from the high word. -/
def MAKEPOINTS (lparam : Nat) : POINTS :=
  { x := SHORT (LOWORD lparam), y := SHORT (HIWORD lparam) }

/-- `static_cast<wchar_t>(wparam)`: the low 16 bits. -/
def wchar_t (wparam : Nat) : Nat := wparam % 65536

/-- `static_cast<int>(wparam)`: the low 32 bits, read as signed. -/
def to_int (wparam : Nat) : Int :=
  if wparam % 4294967296 < 2147483648 then (wparam % 4294967296 : Nat)
  else ((wparam % 4294967296 : Nat) : Int) - 4294967296

def SIZE_MINIMIZED : Nat := 1
def VK_SPACE : Int := 0x20
def XBUTTON1 : Nat := 1
def XBUTTON2 : Nat := 2

/-- `GET_XBUTTON_WPARAM(wparam)`. -/
def GET_XBUTTON_WPARAM (wparam : Nat) : Nat := HIWORD wparam

def WHEEL_DELTA : Int := 120

/-- `GET_WHEEL_DELTA_WPARAM(wparam)`: the high word as a signed `short`. -/
def GET_WHEEL_DELTA_WPARAM (wparam : Nat) : Int := SHORT (HIWORD wparam)

/-- The six messages that share the `case` block of lines 261 to 287. -/
inductive ButtonMessage
  | WM_LBUTTONDOWN
  | WM_RBUTTONDOWN
  | WM_MBUTTONDOWN
  | WM_LBUTTONUP
  | WM_RBUTTONUP
  | WM_MBUTTONUP
  deriving DecidableEq, Repr

/-- The window messages whose `case` of `WndProc` is embedded in `WndProc`
below, each with the parameters that case reads. `WM_NVIM_MESSAGE` carries
the message extracted from the tree that `wparam` points to. The
`case WM_MOUSEWHEEL`, the one case with a loop, is `WndProc_WM_MOUSEWHEEL`. -/
inductive WindowMessage (Node : Type)
  | WM_SIZE (wparam lparam : Nat)
  | WM_NVIM_MESSAGE (tree : MPackMessageResult Node)
  | WM_DEADCHAR
  | WM_SYSDEADCHAR
  | WM_CHAR (wparam : Nat)
  | WM_SYSCHAR (wparam : Nat)
  | button (msg : ButtonMessage) (lparam : Nat)
  | WM_XBUTTONDOWN (wparam : Nat)
  | WM_XBUTTONUP (wparam : Nat)
  | WM_SETFOCUS
  | WM_KILLFOCUS
  | WM_CLOSE
  | WM_RENDERER_FONT_UPDATE
  deriving DecidableEq, Repr

section Window

variable {Node Renderer : Type}

/-- The call `f(context->nvim, ...)` made `n` times in a row. -/
def callNvimTimes (ext : Externals Node Renderer) (context : Context Renderer)
    (call : NvimCall) (n : Nat) : Context Renderer × List (Effect Node) :=
  ({ context with nvim := (fun nvim => ext.nvim_call nvim call)^[n] context.nvim },
   List.replicate n (Effect.nvim call))

/-- One turn of the `while` loop of lines 332 to 346, up to line 344: with
the control key down the font size moves by `scroll_amount * 2.0f` and the
grid is resized if necessary; otherwise `NvimSendMouseInput` is called once
for every `i` from 0 that is below `abs(scroll_amount)`. -/
def wheel_step (ext : Externals Node Renderer) (should_resize_font : Bool)
    (scroll_amount : Float32) (action : MouseAction) (row col : Int)
    (context : Context Renderer) : Context Renderer × List (Effect Node) :=
  if should_resize_font then
    let (c1, e1) := callRenderer ext context
      (.RendererUpdateFont
        ((ext.last_requested_font_size context.renderer).add
          (scroll_amount.mul (.finite 2))))
    let size := ext.RendererPixelsToGridSize c1.renderer
      (ext.pixel_size c1.renderer).width (ext.pixel_size c1.renderer).height
    let r := SendResizeIfNecessary ext c1 size.rows size.cols
    (r.2.1, e1 ++ r.2.2)
  else
    callNvimTimes ext context (.NvimSendMouseInput .Wheel action row col)
      (for_turns scroll_amount.abs)

/-- The `while` loop of lines 332 to 346. The first argument bounds the
number of times the condition of the loop is tested; the result is `none`
when the bound is reached with the loop still running. `abs` is the `float`
overload; the `int` one, which takes the accumulator cut to its whole part,
gives the same test for an accumulator below `2 ^ 31` in magnitude. -/
def drain_scroll (ext : Externals Node Renderer) (should_resize_font : Bool)
    (scroll_amount : Float32) (action : MouseAction) (row col : Int) :
    Nat → Context Renderer → Option (Context Renderer × List (Effect Node))
  | 0, _ => none
  | fuel + 1, context =>
    if Float32.le (.finite 1) context.buffered_scroll_amount.abs then
      let r1 := wheel_step ext should_resize_font scroll_amount action row col context
      let c2 := { r1.1 with
                  buffered_scroll_amount := r1.1.buffered_scroll_amount.sub scroll_amount }
      match drain_scroll ext should_resize_font scroll_amount action row col fuel c2 with
      | none => none
      | some r3 => some (r3.1, r1.2 ++ r3.2)
    else
      some (context, [])

/-- The `case WM_MOUSEWHEEL` of `WndProc` (lines 308 to 347). `fuel` bounds
the loop as in `drain_scroll`; `control_down` is
`(GetKeyState(VK_CONTROL) & 0x80) != 0` at the time the message is handled. -/
def WndProc_WM_MOUSEWHEEL (ext : Externals Node Renderer) (fuel : Nat)
    (context : Context Renderer) (wparam lparam : Nat) (control_down : Bool) :
    Option (Context Renderer × List (Effect Node)) :=
  let should_resize_font := control_down
  let screen_point := MAKEPOINTS lparam
  let client_point := ext.ScreenToClient context.hwnd
    { x := screen_point.x, y := screen_point.y }
  let scroll_amount : Float32 :=
    (Float32.of_int (GET_WHEEL_DELTA_WPARAM wparam)).div (Float32.of_int WHEEL_DELTA)
  let c0 := { context with
              buffered_scroll_amount := context.buffered_scroll_amount.add scroll_amount }
  let grid_pos := ext.RendererCursorToGridPoint c0.renderer client_point.x client_point.y
  let row := grid_pos.row
  let col := grid_pos.col
  let scroll_amount : Float32 :=
    if Float32.lt (.finite 0) c0.buffered_scroll_amount then .finite 1 else .finite (-1)
  let action : MouseAction :=
    if Float32.lt (.finite 0) c0.buffered_scroll_amount then .MouseWheelUp
    else .MouseWheelDown
  drain_scroll ext should_resize_font scroll_amount action row col fuel c0

/-- `WndProc` (lines 109 to 384) on the embedded messages: the context after
the call and what the call did. -/
def WndProc (ext : Externals Node Renderer) (context : Context Renderer)
    (msg : WindowMessage Node) : Except Fault (Context Renderer × List (Effect Node)) :=
  match msg with
  | .WM_SIZE wparam lparam =>
    if wparam ≠ SIZE_MINIMIZED then
      let new_width := LOWORD lparam
      let new_height := HIWORD lparam
      .ok ({ context with saved_window_height := new_height, saved_window_width := new_width }, [])
    else
      .ok (context, [])
  | .WM_NVIM_MESSAGE tree => ProcessMPackMessage ext context tree
  | .WM_DEADCHAR => .ok ({ context with dead_char_pending := true }, [])
  | .WM_SYSDEADCHAR => .ok ({ context with dead_char_pending := true }, [])
  | .WM_CHAR wparam =>
    let c0 := { context with dead_char_pending := false }
    if wparam = 0x3C then
      .ok (callNvim ext c0 (.NvimSendInput "<LT>"))
    else if wparam = 0x00 then
      .ok (callNvim ext c0 (.NvimSendInput "<Nul>"))
    else
      .ok (callNvim ext c0 (.NvimSendChar (wchar_t wparam)))
  | .WM_SYSCHAR wparam =>
    if to_int wparam = VK_SPACE then
      .ok (context, [Effect.DefWindowProc])
    else
      let c0 := { context with dead_char_pending := false }
      .ok (callNvim ext c0 (.NvimSendSysChar (wchar_t wparam)))
  | .button msg lparam =>
    let cursor_pos := MAKEPOINTS lparam
    let grid_pos := ext.RendererCursorToGridPoint context.renderer cursor_pos.x cursor_pos.y
    let row := grid_pos.row
    let col := grid_pos.col
    if msg = .WM_LBUTTONDOWN then
      .ok (callNvim ext context (.NvimSendMouseInput .Left .Press row col))
    else if msg = .WM_MBUTTONDOWN then
      .ok (callNvim ext context (.NvimSendMouseInput .Middle .Press row col))
    else if msg = .WM_RBUTTONDOWN then
      .ok (callNvim ext context (.NvimSendMouseInput .Right .Press row col))
    else if msg = .WM_LBUTTONUP then
      .ok (callNvim ext context (.NvimSendMouseInput .Left .Release row col))
    else if msg = .WM_MBUTTONUP then
      .ok (callNvim ext context (.NvimSendMouseInput .Middle .Release row col))
    else if msg = .WM_RBUTTONUP then
      .ok (callNvim ext context (.NvimSendMouseInput .Right .Release row col))
    else
      .ok (context, [])
  | .WM_XBUTTONDOWN wparam =>
    let button := GET_XBUTTON_WPARAM wparam
    if button = XBUTTON1 ∧ context.xbuttons.1 = false then
      let (c1, e1) := callNvim ext context (.NvimSendInput "<C-o>")
      .ok ({ c1 with xbuttons := (true, c1.xbuttons.2) }, e1)
    else if button = XBUTTON2 ∧ context.xbuttons.2 = false then
      let (c1, e1) := callNvim ext context (.NvimSendInput "<C-i>")
      .ok ({ c1 with xbuttons := (c1.xbuttons.1, true) }, e1)
    else
      .ok (context, [])
  | .WM_XBUTTONUP wparam =>
    let button := GET_XBUTTON_WPARAM wparam
    if button = XBUTTON1 then
      .ok ({ context with xbuttons := (false, context.xbuttons.2) }, [])
    else if button = XBUTTON2 then
      .ok ({ context with xbuttons := (context.xbuttons.1, false) }, [])
    else
      .ok (context, [])
  | .WM_SETFOCUS => .ok (callNvim ext context .NvimSetFocus)
  | .WM_KILLFOCUS => .ok (callNvim ext context .NvimKillFocus)
  | .WM_CLOSE => .ok (callNvim ext context .NvimQuit)
  | .WM_RENDERER_FONT_UPDATE =>
    let size := ext.RendererPixelsToGridSize context.renderer
      (ext.pixel_size context.renderer).width (ext.pixel_size context.renderer).height
    let r := SendResizeIfNecessary ext context size.rows size.cols
    .ok (r.2.1, r.2.2)

end Window

/-! ## The command line -/

/-- `wcslen`: a wide string is kept as the list of its characters, without
the terminating zero. -/
def wcslen (s : List Char) : Nat := s.length

/-- `wcscmp(a, b) == 0`. -/
def wcscmp_eq (a b : List Char) : Bool := a == b

/-- `wcsncmp(a, b, n) == 0`: the first `n` characters agree. -/
def wcsncmp_eq (a b : List Char) (n : Nat) : Bool := a.take n == b.take n

/-- `sizeof(wchar_t)`. -/
def sizeof_wchar_t : Nat := 2

/-- The double quote character. -/
def dquote : Char := Char.ofNat 34

/-- The locals of `wWinMain` that the two loops over the arguments assign
(lines 412 to 446). -/
structure Locals where
  start_maximized : Bool
  start_fullscreen : Bool
  disable_ligatures : Bool
  disable_fullscreen : Bool
  linespace_factor : ℚ
  start_rows : Int
  start_cols : Int
  start_pos_x : Int
  start_pos_y : Int
  enable_cursor_timeout : Bool
  cursor_timeout_in_ms : Nat
  nvim_cmd : List Char
  nvim_cmd_len : Nat
  deriving DecidableEq, Repr

/-- What the loops over the arguments need from outside `main.cpp`: the
number parsers, each giving the value and the rest of the string from
`end_ptr` on, and whether `realloc` finds the number of bytes asked for. -/
structure CommandLineExternals where
  wcstol : List Char → Int × List Char
  wcstof : List Char → ℚ × List Char
  realloc_ok : Nat → Bool

/-- Lines 443 to 446: the command starts as `NVIM_CMD`, and `nvim_cmd_len` as
its length. -/
def initial_command (locals : Locals) : Locals :=
  { locals with
    nvim_cmd := "nvim --embed".toList
    nvim_cmd_len := wcslen "nvim --embed".toList }

/-- The loop of lines 449 to 461 over the arguments after `argv[0]`: an
argument that starts with `--neovim-bin=` replaces the command. -/
def find_neovim_bin : Locals → List (List Char) → Locals
  | locals, [] => locals
  | locals, arg :: rest =>
    if wcsncmp_eq arg "--neovim-bin=".toList (wcslen "--neovim-bin=".toList) then
      let nvim_bin := arg.drop 13
      let nvim_cmd := [dquote] ++ nvim_bin ++ (dquote :: " --embed".toList)
      find_neovim_bin { locals with nvim_cmd := nvim_cmd, nvim_cmd_len := wcslen nvim_cmd } rest
    else
      find_neovim_bin locals rest

/-- How the loop of lines 464 to 521 ends. -/
inductive ArgumentsResult
  /-- The loop ran to its end, or left through `break`. -/
  | completed (locals : Locals)
  /-- Lines 506 and 507: the message "ERROR: File path too long" is shown and
  `wWinMain` returns 1; `locals` are the locals at that point. -/
  | too_long (locals : Locals)
  deriving DecidableEq, Repr

/-- The locals a result carries. -/
def ArgumentsResult.locals : ArgumentsResult → Locals
  | .completed locals => locals
  | .too_long locals => locals

/-- Whether the result is the "File path too long" exit. -/
def ArgumentsResult.rejected : ArgumentsResult → Bool
  | .completed _ => false
  | .too_long _ => true

/-- The loop of lines 464 to 521 over the arguments after `argv[0]`. -/
def parse_arguments (lib : CommandLineExternals) : Locals → List (List Char) → ArgumentsResult
  | locals, [] => .completed locals
  | locals, arg :: rest =>
    if wcscmp_eq arg "--maximize".toList then
      parse_arguments lib { locals with start_maximized := true } rest
    else if wcscmp_eq arg "--fullscreen".toList then
      parse_arguments lib { locals with start_fullscreen := true } rest
    else if wcscmp_eq arg "--disable-ligatures".toList then
      parse_arguments lib { locals with disable_ligatures := true } rest
    else if wcscmp_eq arg "--disable-fullscreen".toList then
      parse_arguments lib { locals with disable_fullscreen := true } rest
    else if wcsncmp_eq arg "--geometry=".toList (wcslen "--geometry=".toList) then
      let (start_cols, end_ptr) := lib.wcstol (arg.drop 11)
      let (start_rows, _) := lib.wcstol (end_ptr.drop 1)
      parse_arguments lib { locals with start_cols := start_cols, start_rows := start_rows } rest
    else if wcsncmp_eq arg "--position=".toList (wcslen "--position=".toList) then
      let (start_pos_x, end_ptr) := lib.wcstol (arg.drop 11)
      let (start_pos_y, _) := lib.wcstol (end_ptr.drop 1)
      parse_arguments lib { locals with start_pos_x := start_pos_x, start_pos_y := start_pos_y }
        rest
    else if wcsncmp_eq arg "--linespace-factor=".toList (wcslen "--linespace-factor=".toList) then
      let (factor, _) := lib.wcstof (arg.drop 19)
      if factor > 0 ∧ factor < 20 then
        parse_arguments lib { locals with linespace_factor := factor } rest
      else
        parse_arguments lib locals rest
    else if wcsncmp_eq arg "--cursor-timeout=".toList (wcslen "--cursor-timeout=".toList) then
      let (timeout, _) := lib.wcstol (arg.drop 17)
      parse_arguments lib
        { locals with
          enable_cursor_timeout := true
          cursor_timeout_in_ms := (timeout % 4294967296).toNat } rest
    else if wcsncmp_eq arg "--neovim-bin=".toList (wcslen "--neovim-bin=".toList) then
      parse_arguments lib locals rest
    else
      let arg_len := wcslen arg
      if locals.nvim_cmd_len + arg_len + 4 ≥ 32767 then
        .too_long locals
      else
        let tmp_len := sizeof_wchar_t * (locals.nvim_cmd_len + arg_len + 4)
        if lib.realloc_ok tmp_len then
          parse_arguments lib
            { locals with
              nvim_cmd_len := tmp_len
              nvim_cmd := locals.nvim_cmd ++ [' ', dquote] ++ arg ++ [dquote] } rest
        else
          .completed locals

/-- Lines 443 to 521 of `wWinMain`: the command is set up, then the two loops
run over `cmd_line_args` without `argv[0]`. -/
def wWinMain_command_line (lib : CommandLineExternals) (locals : Locals)
    (cmd_line_args : List (List Char)) : ArgumentsResult :=
  parse_arguments lib (find_neovim_bin (initial_command locals) (cmd_line_args.drop 1))
    (cmd_line_args.drop 1)

/-- The locals before the loops: the defaults of lines 412 to 441 (the
values read from `nvy.ini` being absent). -/
def defaultLocals : Locals where
  start_maximized := false
  start_fullscreen := false
  disable_ligatures := false
  disable_fullscreen := false
  linespace_factor := 9 / 10
  start_rows := 64
  start_cols := 160
  start_pos_x := 550
  start_pos_y := 65
  enable_cursor_timeout := false
  cursor_timeout_in_ms := 0
  nvim_cmd := []
  nvim_cmd_len := 0

/-- A library to run the loops on examples: the number parsers find no
digits, and `realloc` always finds memory. -/
def sampleLibrary : CommandLineExternals where
  wcstol := fun s => (0, s)
  wcstof := fun s => (0, s)
  realloc_ok := fun _ => true

/-! ## Shutdown -/

def EXIT_SUCCESS : Int := 0

/-- The size of `DWORD`. -/
def DWORD_SIZE : Nat := 4294967296

/-- One call of `ReadFile` on the child's diagnostic stream that succeeds:
the bytes it stores in `buffer` (`read` is their number) and whether the
`realloc` that follows a non-empty read finds memory. -/
structure ReadFile where
  buffer : List Nat
  realloc_ok : Bool
  deriving DecidableEq, Repr

/-- The `while (true)` loop of lines 630 to 645 over the successful reads
that come before the first failing one; `msg` is the content of the block
`msg` points to and `len` the `DWORD` counter. Returns both as the loop
leaves them. -/
def read_stderr : List ReadFile → List Nat → Nat → List Nat × Nat
  | [], msg, len => (msg, len)
  | r :: rest, msg, len =>
    let read := r.buffer.length
    if read = 0 then
      read_stderr rest msg len
    else if r.realloc_ok = false then
      (msg, len)
    else
      let tmp := msg.take len ++ r.buffer ++ [0]
      let len1 := (len + read) % DWORD_SIZE
      read_stderr rest (tmp.set len1 0) len1

section Shutdown

variable {Node Renderer : Type}

/-- The end of `wWinMain` (lines 622 to 656), entered when the message loop
ends: the value returned and what is done on the way. `reads` are the
successful reads of the diagnostic stream before the first failing one. -/
def wWinMain_shutdown (ext : Externals Node Renderer) (context : Context Renderer)
    (reads : List ReadFile) : Int × List (Effect Node) :=
  let (c1, e1) := callRenderer ext context .RendererShutdown
  let (c2, e2) := callNvim ext c1 .NvimShutdown
  let report : List (Effect Node) :=
    if c2.nvim.exit_code ≠ EXIT_SUCCESS then
      let (msg, len) := read_stderr reads (List.replicate 512 0) 0
      if len > 0 then [Effect.MessageBoxA msg "Nvy"] else []
    else
      []
  (c2.nvim.exit_code, e1 ++ e2 ++ report ++ [Effect.UnregisterClass, Effect.DestroyWindow])

end Shutdown

/-- The bytes of the diagnostic stream in read order: the buffers of the
reads laid end to end (a read of zero bytes adds nothing). -/
def stderr_text (reads : List ReadFile) : List Nat :=
  (reads.map (fun r => r.buffer)).flatten

/-- The string a `char *` argument denotes: the bytes of the block it points
to that come before the first zero byte. -/
def c_string (block : List Nat) : List Nat :=
  block.takeWhile (fun c => c ≠ 0)

/-- The texts of the error reports shown, in order: for every `MessageBoxA`
among the effects, the string its text argument denotes. -/
def reports_shown {Node : Type} : List (Effect Node) → List (List Nat)
  | [] => []
  | .MessageBoxA text _ :: rest => c_string text :: reports_shown rest
  | _ :: rest => reports_shown rest

/-- The button a button message is about. -/
def ButtonMessage.button : ButtonMessage → MouseButton
  | .WM_LBUTTONDOWN => .Left
  | .WM_LBUTTONUP => .Left
  | .WM_MBUTTONDOWN => .Middle
  | .WM_MBUTTONUP => .Middle
  | .WM_RBUTTONDOWN => .Right
  | .WM_RBUTTONUP => .Right

/-- Press for a button-down message, Release for a button-up message. -/
def ButtonMessage.action : ButtonMessage → MouseAction
  | .WM_LBUTTONDOWN => .Press
  | .WM_MBUTTONDOWN => .Press
  | .WM_RBUTTONDOWN => .Press
  | .WM_LBUTTONUP => .Release
  | .WM_MBUTTONUP => .Release
  | .WM_RBUTTONUP => .Release

/-! ## A concrete instance -/

/-- Modelled from the spec: the calls of `nvim.cpp` on the connection record.
Calls that issue a Request register it under their kind; the other calls
leave the record as it is. -/
def sample_nvim_call (nvim : Nvim) : NvimCall → Nvim
  | .NvimInitialize => (RegisterRequest nvim .vim_get_api_info).2
  | .NvimGetOptionValue _ => (RegisterRequest nvim .nvim_get_option_value).2
  | .NvimSendInput _ => (RegisterRequest nvim .nvim_input).2
  | .NvimSendChar _ => (RegisterRequest nvim .nvim_input).2
  | .NvimSendSysChar _ => (RegisterRequest nvim .nvim_input).2
  | .NvimSendMouseInput _ _ _ _ => (RegisterRequest nvim .nvim_input_mouse).2
  | .NvimQuit => (RegisterRequest nvim .nvim_command).2
  | _ => nvim

/-- Externals to run the embedding on examples: a node is the list of bytes
of its string, the renderer state is the number of calls it has seen, and a
cell is 10 pixels wide and 20 high; the grid is initialised, with 64 rows and
160 columns, and the window is at the origin of the screen. -/
def sampleExternals : Externals (List Nat) Nat where
  nvim_call := sample_nvim_call
  renderer_call := fun r _ => r + 1
  NvimParseOptionValueStr := fun _ node => node
  RendererGridToPixelSize := fun _ rows cols => { width := cols * 10, height := rows * 20 }
  RendererCursorToGridPoint := fun _ x y => { row := y / 20, col := x / 10 }
  grid_initialized := fun _ => true
  grid_rows := fun _ => 64
  grid_cols := fun _ => 160
  last_requested_font_size := fun _ => .finite 14
  pixel_size := fun _ => { width := 1600, height := 1280 }
  RendererPixelsToGridSize := fun _ width height => { rows := height / 20, cols := width / 10 }
  ScreenToClient := fun _ point => point

/-- A context as `wWinMain` builds it (lines 543 to 555), with the defaults
of lines 418 and 419 and the connection as `NvimInitialize` leaves it. -/
def sampleContext : Context Nat where
  start_maximized := false
  start_fullscreen := false
  start_rows := 64
  start_cols := 160
  disable_fullscreen := false
  hwnd := 1
  nvim := sample_nvim_call Nvim.zero .NvimInitialize
  renderer := 0
  dead_char_pending := false
  xbuttons := (false, false)
  buffered_scroll_amount := .finite 0
  cached_cursor_grid_pos := { row := 0, col := 0 }
  saved_window_placement := 0
  saved_dpi_scaling := 96
  saved_window_width := 0
  saved_window_height := 0
  enable_cursor_timeout := false
  cursor_timer_id := 1
  cursor_timeout_in_ms := 0
  hkl := 0

/-! ## Theorems: routing of decoded messages -/

section DispatchTheorems

variable {Node Renderer : Type}

theorem RegisterRequest_wellFormed (nvim : Nvim) (request : NvimRequest)
    (h : nvim.WellFormed) : (RegisterRequest nvim request).2.WellFormed := by
  intro p hp
  simp only [RegisterRequest, List.mem_append, List.mem_singleton] at hp ⊢
  rcases hp with hp | hp
  · exact Nat.lt_succ_of_lt (h p hp)
  · subst hp
    exact Nat.lt_succ_self _

theorem method_next_msg_id_eq_none (nvim : Nvim) (h : nvim.WellFormed) :
    nvim.method nvim.next_msg_id = none := by
  unfold Nvim.method
  rw [List.lookup_eq_none_iff]
  intro p hp
  have h1 := h p hp
  simp only [bne_iff_ne, ne_eq]
  omega

theorem process_request_vimenter (ext : Externals Node Renderer)
    (context : Context Renderer) (m : Nat) (params : Node) :
    ProcessMPackMessage ext context (.Request m "vimenter" params)
      = .ok ({ context with
                nvim := ext.nvim_call (ext.nvim_call context.nvim (.NvimSendResponse m))
                          (.NvimGetOptionValue "guifont") },
             [Effect.nvim (.NvimSendResponse m), Effect.nvim (.NvimGetOptionValue "guifont")]) := by
  simp [ProcessMPackMessage, MPackMatchString, callNvim]

/-- C1: for a Request named "vimenter" with message id `m`,
`ProcessMPackMessage` returns normally having made exactly two calls, in this
order: `NvimSendResponse` with the id `m`, then `NvimGetOptionValue` for
"guifont". Nothing else is done, and the renderer and every field of the
context other than the connection are as before. -/
theorem vimenter_request_answered_then_guifont_queried (ext : Externals Node Renderer)
    (context : Context Renderer) (m : Nat) (params : Node) :
    ProcessMPackMessage ext context (.Request m "vimenter" params)
      = .ok ({ context with
                nvim := ext.nvim_call (ext.nvim_call context.nvim (.NvimSendResponse m))
                          (.NvimGetOptionValue "guifont") },
             [Effect.nvim (.NvimSendResponse m), Effect.nvim (.NvimGetOptionValue "guifont")]) :=
  process_request_vimenter ext context m params

/-- C2, counterexample: a Request with id 7 whose method is "ping" is
processed without any call: no Response carrying 7 is sent. -/
theorem request_ping_sends_nothing :
    ProcessMPackMessage sampleExternals sampleContext (.Request 7 "ping" [])
      = .ok (sampleContext, []) := by
  rfl

/-- C2, amended: a Request named "vimenter" with id `m` is answered with a
Response carrying `m` as the first thing `ProcessMPackMessage` does; a
Request with any other method name is ignored: the call returns normally,
nothing is sent and the context is as before. -/
theorem request_answered_only_for_vimenter (ext : Externals Node Renderer)
    (context : Context Renderer) (m : Nat) (method : String) (params : Node) :
    ∃ c e, ProcessMPackMessage ext context (.Request m method params) = .ok (c, e) ∧
      ((method = "vimenter" ∧ e.head? = some (Effect.nvim (.NvimSendResponse m))) ∨
       (method ≠ "vimenter" ∧ e = [] ∧ c = context)) := by
  by_cases h : method = "vimenter"
  · subst h
    exact ⟨_, _, process_request_vimenter ext context m params, Or.inl ⟨rfl, rfl⟩⟩
  · refine ⟨context, [], ?_, Or.inr ⟨h, rfl, rfl⟩⟩
    simp [ProcessMPackMessage, MPackMatchString, h]

/-- C3: a Notification named "redraw" makes `ProcessMPackMessage` call
`RendererRedraw` exactly once, with the notification's params, and do nothing
else; a Notification with any other name is ignored: the call returns
normally, no renderer call is made, nothing is sent and the context is as
before. -/
theorem notification_redraws_iff_named_redraw (ext : Externals Node Renderer)
    (context : Context Renderer) (name : String) (params : Node) :
    ∃ c e, ProcessMPackMessage ext context (.Notification name params) = .ok (c, e) ∧
      ((name = "redraw" ∧
          e = [Effect.renderer (.RendererRedraw params context.start_maximized)]) ∨
       (name ≠ "redraw" ∧ e = [] ∧ c = context)) := by
  by_cases h : name = "redraw"
  · subst h
    refine ⟨{ context with
               renderer := ext.renderer_call context.renderer
                 (.RendererRedraw params context.start_maximized) },
            _, ?_, Or.inl ⟨rfl, rfl⟩⟩
    simp [ProcessMPackMessage, MPackMatchString, callRenderer]
  · refine ⟨context, [], ?_, Or.inr ⟨h, rfl, rfl⟩⟩
    simp [ProcessMPackMessage, MPackMatchString, h]

theorem registered_lt_next_msg_id (nvim : Nvim) (h : nvim.WellFormed) (msg_id : Nat)
    (kind : NvimRequest) (hreg : nvim.method msg_id = some kind) :
    msg_id < nvim.next_msg_id := by
  unfold Nvim.method at hreg
  obtain ⟨l₁, l₂, hl, _⟩ := List.lookup_eq_some_iff.mp hreg
  have := h (msg_id, kind) (by rw [hl]; simp)
  simpa using this

/-- C4, the code where the guard lets an id through that was never handed
out: in every connection state whose registered ids lie below `next_msg_id`,
the id `next_msg_id` itself has no entry in `msg_id_to_method`, yet a
Response carrying it passes the `assert` of line 59 (the result is not
`Fault.assertion`) and the `switch` indexes the table with it. -/
theorem response_with_next_msg_id_passes_guard (ext : Externals Node Renderer)
    (context : Context Renderer) (params : Node) (h : context.nvim.WellFormed) :
    context.nvim.method context.nvim.next_msg_id = none ∧
    ProcessMPackMessage ext context (.Response context.nvim.next_msg_id params)
      = .error .no_entry := by
  have hnone := method_next_msg_id_eq_none context.nvim h
  refine ⟨hnone, ?_⟩
  simp [ProcessMPackMessage, hnone]

/-- C4, at the failing input: one request registered (id 0), Response with
id 1. -/
theorem response_with_next_msg_id_passes_guard_witness :
    sampleContext.nvim.WellFormed ∧
    (sampleContext.nvim.method 1 = none ∧
     ProcessMPackMessage sampleExternals sampleContext (.Response 1 []) = .error .no_entry) :=
  ⟨by decide, response_with_next_msg_id_passes_guard sampleExternals sampleContext [] (by decide)⟩

/-- C5, counterexample: with id 0 registered, processing a Response with id 0
returns the context it was given, so the entry for id 0 is still in the
table and a second Response with id 0 is processed in the same way. -/
theorem response_keeps_entry :
    ProcessMPackMessage sampleExternals sampleContext (.Response 0 [])
      = .ok (sampleContext, []) ∧
    sampleContext.nvim.method 0 = some .vim_get_api_info := by
  constructor <;> rfl

theorem process_response_nvim (ext : Externals Node Renderer)
    (context : Context Renderer) (msg_id : Nat) (params : Node)
    (c : Context Renderer) (e : List (Effect Node))
    (h : ProcessMPackMessage ext context (.Response msg_id params) = .ok (c, e)) :
    c.nvim = context.nvim := by
  unfold ProcessMPackMessage at h
  simp only [callRenderer] at h
  split at h
  · split at h
    · simp at h
    · split at h
      · split at h
        all_goals
          simp only [Except.ok.injEq, Prod.mk.injEq] at h
          rw [← h.1]
      · simp only [Except.ok.injEq, Prod.mk.injEq] at h
        rw [← h.1]
    all_goals
      simp only [Except.ok.injEq, Prod.mk.injEq] at h
      rw [← h.1]
  · simp at h

theorem process_response_registered_ok (ext : Externals Node Renderer)
    (context : Context Renderer) (msg_id : Nat) (params : Node) (kind : NvimRequest)
    (hle : msg_id ≤ context.nvim.next_msg_id)
    (hreg : context.nvim.method msg_id = some kind) :
    ∃ c e, ProcessMPackMessage ext context (.Response msg_id params) = .ok (c, e) := by
  cases kind <;> simp only [ProcessMPackMessage, hle, hreg, if_true] <;>
    first
    | exact ⟨_, _, rfl⟩
    | (simp only [callRenderer]; split <;> [split; skip] <;> exact ⟨_, _, rfl⟩)

/-- C5, amended: for a Response whose id is registered, in a connection
state whose registered ids lie below `next_msg_id`, `ProcessMPackMessage`
returns normally and leaves the connection record as it was: the table
still holds the entry, and a second Response with the same id finds the
same kind. -/
theorem response_leaves_table_unchanged (ext : Externals Node Renderer)
    (context : Context Renderer) (msg_id : Nat) (params : Node) (kind : NvimRequest)
    (h : context.nvim.WellFormed) (hreg : context.nvim.method msg_id = some kind) :
    ∃ c e, ProcessMPackMessage ext context (.Response msg_id params) = .ok (c, e) ∧
      c.nvim = context.nvim ∧ c.nvim.method msg_id = some kind := by
  have hle : msg_id ≤ context.nvim.next_msg_id :=
    Nat.le_of_lt (registered_lt_next_msg_id context.nvim h msg_id kind hreg)
  obtain ⟨c, e, hce⟩ := process_response_registered_ok ext context msg_id params kind hle hreg
  have hn := process_response_nvim ext context msg_id params c e hce
  exact ⟨c, e, hce, hn, by rw [hn]; exact hreg⟩

/-- C5, amended, at a `get-option-value` entry: the request issued on
"vimenter" is registered under id 1 and answered. -/
theorem response_leaves_table_unchanged_witness :
    (sample_nvim_call sampleContext.nvim (.NvimGetOptionValue "guifont")).WellFormed ∧
    (sample_nvim_call sampleContext.nvim (.NvimGetOptionValue "guifont")).method 1
      = some .nvim_get_option_value ∧
    ∃ c e, ProcessMPackMessage sampleExternals
        { sampleContext with
          nvim := sample_nvim_call sampleContext.nvim (.NvimGetOptionValue "guifont") }
        (.Response 1 [67, 0]) = .ok (c, e) ∧
      c.nvim = sample_nvim_call sampleContext.nvim (.NvimGetOptionValue "guifont") ∧
      c.nvim.method 1 = some .nvim_get_option_value :=
  ⟨by decide, by decide,
   response_leaves_table_unchanged sampleExternals
     { sampleContext with
       nvim := sample_nvim_call sampleContext.nvim (.NvimGetOptionValue "guifont") }
     1 [67, 0] .nvim_get_option_value (by decide) (by decide)⟩

end DispatchTheorems

/-! ## Theorems: shutdown -/

section ShutdownTheorems

variable {Node Renderer : Type}

theorem set_length_append_singleton (l : List Nat) (a : Nat) :
    (l ++ [a]).set l.length a = l ++ [a] := by
  induction l with
  | nil => rfl
  | cons x xs ih => simp [List.set, ih]

theorem read_stderr_all (reads : List ReadFile) :
    ∀ (msg : List Nat) (len : Nat) (acc : List Nat),
      (∀ r ∈ reads, r.realloc_ok = true) →
      len = acc.length → msg.take len = acc →
      acc.length + (stderr_text reads).length < DWORD_SIZE →
      read_stderr reads msg len =
        (if stderr_text reads = [] then msg else acc ++ stderr_text reads ++ [0],
         acc.length + (stderr_text reads).length) := by
  induction reads with
  | nil =>
    intro msg len acc _ hlen _ _
    simp [read_stderr, stderr_text, hlen]
  | cons r rest ih =>
    intro msg len acc hmem hlen htake hsize
    have hrest : ∀ r ∈ rest, r.realloc_ok = true := fun x hx => hmem x (List.mem_cons_of_mem _ hx)
    have hr : r.realloc_ok = true := hmem r (List.mem_cons_self _ _)
    have htext : stderr_text (r :: rest) = r.buffer ++ stderr_text rest := by
      simp [stderr_text]
    by_cases h0 : r.buffer.length = 0
    · have hnil : r.buffer = [] := List.length_eq_zero.mp h0
      have htext0 : stderr_text (r :: rest) = stderr_text rest := by rw [htext, hnil]; rfl
      rw [htext0] at hsize ⊢
      simp only [read_stderr, h0, if_true]
      exact ih msg len acc hrest hlen htake hsize
    · have hsz : acc.length + r.buffer.length + (stderr_text rest).length < DWORD_SIZE := by
        rw [htext, List.length_append] at hsize
        omega
      have hmod : (len + r.buffer.length) % DWORD_SIZE = (acc ++ r.buffer).length := by
        rw [List.length_append, hlen]
        exact Nat.mod_eq_of_lt (by omega)
      have hset : (msg.take len ++ r.buffer ++ [0]).set ((len + r.buffer.length) % DWORD_SIZE) 0
          = acc ++ r.buffer ++ [0] := by
        rw [hmod, htake]
        exact set_length_append_singleton (acc ++ r.buffer) 0
      have hne : r.buffer ≠ [] := fun hb => h0 (by rw [hb]; rfl)
      simp only [read_stderr, h0, if_false, hr, Bool.true_eq_false]
      rw [hset, hmod]
      have htake2 : (acc ++ r.buffer ++ [0]).take (acc ++ r.buffer).length = acc ++ r.buffer :=
        List.take_left' rfl
      rw [ih (acc ++ r.buffer ++ [0]) (acc ++ r.buffer).length (acc ++ r.buffer) hrest rfl htake2
        (by rw [List.length_append]; exact hsz)]
      rw [htext]
      by_cases hn : stderr_text rest = []
      · simp [hn, hne]
      · simp [hn, hne, Nat.add_assoc]

theorem shutdown_effects (ext : Externals Node Renderer)
    (context : Context Renderer) (reads : List ReadFile)
    (hmem : ∀ r ∈ reads, r.realloc_ok = true)
    (hsize : (stderr_text reads).length < DWORD_SIZE) :
    wWinMain_shutdown ext context reads =
      ((ext.nvim_call context.nvim .NvimShutdown).exit_code,
       [Effect.renderer .RendererShutdown, Effect.nvim .NvimShutdown] ++
         (if (ext.nvim_call context.nvim .NvimShutdown).exit_code ≠ EXIT_SUCCESS ∧
              stderr_text reads ≠ [] then
            [Effect.MessageBoxA (stderr_text reads ++ [0]) "Nvy"]
          else []) ++
         [Effect.UnregisterClass, Effect.DestroyWindow]) := by
  have hloop := read_stderr_all reads (List.replicate 512 0) 0 [] hmem rfl rfl
    (by simpa using hsize)
  simp only [wWinMain_shutdown, callRenderer, callNvim, hloop]
  by_cases hx : (ext.nvim_call context.nvim .NvimShutdown).exit_code = EXIT_SUCCESS
  · simp [hx]
  · by_cases ht : stderr_text reads = []
    · simp [hx, ht]
    · have hpos : 0 < (stderr_text reads).length := List.length_pos.mpr ht
      simp [hx, ht, hpos]

theorem c_string_append_zero (text : List Nat) (h : ∀ c ∈ text, c ≠ 0) :
    c_string (text ++ [0]) = text := by
  induction text with
  | nil => rfl
  | cons x xs ih =>
    have hx : x ≠ 0 := h x (List.mem_cons_self _ _)
    have hxs : ∀ c ∈ xs, c ≠ 0 := fun c hc => h c (List.mem_cons_of_mem _ hc)
    have ih1 := ih hxs
    unfold c_string at ih1 ⊢
    rw [List.cons_append, List.takeWhile_cons, ih1]
    simp [hx]

theorem shutdown_shape (ext : Externals Node Renderer)
    (context : Context Renderer) (reads : List ReadFile) :
    ∃ report : List (Effect Node),
      wWinMain_shutdown ext context reads =
        ((ext.nvim_call context.nvim .NvimShutdown).exit_code,
         [Effect.renderer .RendererShutdown, Effect.nvim .NvimShutdown] ++ report ++
           [Effect.UnregisterClass, Effect.DestroyWindow]) ∧
      (report = [] ∨
        ((ext.nvim_call context.nvim .NvimShutdown).exit_code ≠ EXIT_SUCCESS ∧
          ∃ msg, report = [Effect.MessageBoxA msg "Nvy"])) := by
  simp only [wWinMain_shutdown, callRenderer, callNvim]
  generalize read_stderr reads (List.replicate 512 0) 0 = r
  by_cases hx : (ext.nvim_call context.nvim .NvimShutdown).exit_code = EXIT_SUCCESS
  · refine ⟨[], ?_, Or.inl rfl⟩
    simp [hx]
  · by_cases hl : r.2 > 0
    · refine ⟨[Effect.MessageBoxA r.1 "Nvy"], ?_, Or.inr ⟨hx, _, rfl⟩⟩
      simp [hx, hl]
    · refine ⟨[], ?_, Or.inl rfl⟩
      simp [hx, hl]

theorem read_stderr_single_bytes (n : Nat) :
    ∀ (msg : List Nat) (len : Nat), len < DWORD_SIZE →
      (read_stderr (List.replicate n (ReadFile.mk [65] true)) msg len).2
        = (len + n) % DWORD_SIZE := by
  induction n with
  | zero =>
    intro msg len hlen
    simp [read_stderr, Nat.mod_eq_of_lt hlen]
  | succ n ih =>
    intro msg len hlen
    rw [List.replicate_succ]
    simp only [read_stderr, List.length_singleton, Nat.succ_ne_zero, if_false,
      Bool.true_eq_false]
    rw [ih _ _ (Nat.mod_lt _ (by decide))]
    rw [Nat.mod_add_mod]
    congr 1
    omega

theorem shutdown_single_bytes (ext : Externals Node Renderer)
    (context : Context Renderer) (n : Nat) (hn : n % DWORD_SIZE = 0) :
    reports_shown (wWinMain_shutdown ext context
      (List.replicate n (ReadFile.mk [65] true))).2 = [] := by
  have hlen := read_stderr_single_bytes n (List.replicate 512 0) 0 (by decide)
  rw [Nat.zero_add, hn] at hlen
  simp only [wWinMain_shutdown, callRenderer, callNvim]
  generalize read_stderr (List.replicate n (ReadFile.mk [65] true)) (List.replicate 512 0) 0
    = r at hlen
  by_cases hx : (ext.nvim_call context.nvim .NvimShutdown).exit_code = EXIT_SUCCESS
  · simp [hx, reports_shown]
  · simp [hx, hlen, reports_shown]

theorem stderr_text_single_bytes (n : Nat) (hn : 0 < n) :
    stderr_text (List.replicate n (ReadFile.mk [65] true)) ≠ [] := by
  cases n with
  | zero => exact absurd hn (Nat.lt_irrefl 0)
  | succ m => simp [stderr_text, List.replicate_succ]

/-- C8, counterexample: with exit code 1, three diagnostic streams on which
the report is not the concatenation of the chunks read. A single chunk
"E", 0, "r", 0 is reported as "E": the text of the report ends at the first
zero byte. The chunks "E" and "r", with no memory for the second, are
reported as "E". And 2^32 chunks of one byte each are not reported at all:
the `DWORD` count `len` is 0 again when the loop ends. -/
theorem shutdown_report_differs_from_chunks :
    (reports_shown (wWinMain_shutdown sampleExternals
        { sampleContext with nvim := { sampleContext.nvim with exit_code := 1 } }
        [ReadFile.mk [69, 0, 114, 0] true]).2 = [[69]] ∧
      stderr_text [ReadFile.mk [69, 0, 114, 0] true] = [69, 0, 114, 0]) ∧
    (reports_shown (wWinMain_shutdown sampleExternals
        { sampleContext with nvim := { sampleContext.nvim with exit_code := 1 } }
        [ReadFile.mk [69] true, ReadFile.mk [114] false]).2 = [[69]] ∧
      stderr_text [ReadFile.mk [69] true, ReadFile.mk [114] false] = [69, 114]) ∧
    (reports_shown (wWinMain_shutdown sampleExternals
        { sampleContext with nvim := { sampleContext.nvim with exit_code := 1 } }
        (List.replicate 4294967296 (ReadFile.mk [65] true))).2 = [] ∧
      stderr_text (List.replicate 4294967296 (ReadFile.mk [65] true)) ≠ []) := by
  refine ⟨⟨by decide, by decide⟩, ⟨by decide, by decide⟩, ?_, ?_⟩
  · exact shutdown_single_bytes sampleExternals _ 4294967296 (by decide)
  · exact stderr_text_single_bytes 4294967296 (by decide)

/-- C8, amended: at shutdown, when the child's exit code is not
`EXIT_SUCCESS` and the reads of the diagnostic stream return chunks that hold
no zero byte and fewer than 2^32 bytes in all, every `realloc` finding
memory, exactly one report is shown and its text is the chunks laid end to
end in read order, if that is not empty; no report is shown if it is empty.
Whatever the reads and the memory: no report is shown when the exit code is
`EXIT_SUCCESS`, at most one is shown otherwise, the value returned is the
exit code, and apart from a report the only actions are `RendererShutdown`,
`NvimShutdown`, `UnregisterClass` and `DestroyWindow`, so that the child is
not started again. -/
theorem shutdown_reports_diagnostics_once (ext : Externals Node Renderer)
    (context : Context Renderer) (reads : List ReadFile) :
    ((wWinMain_shutdown ext context reads).1
        = (ext.nvim_call context.nvim .NvimShutdown).exit_code ∧
      (∃ report : List (Effect Node),
        (wWinMain_shutdown ext context reads).2 =
          [Effect.renderer .RendererShutdown, Effect.nvim .NvimShutdown] ++ report ++
            [Effect.UnregisterClass, Effect.DestroyWindow] ∧
        (report = [] ∨
          ((ext.nvim_call context.nvim .NvimShutdown).exit_code ≠ EXIT_SUCCESS ∧
            ∃ msg, report = [Effect.MessageBoxA msg "Nvy"])))) ∧
    ((∀ r ∈ reads, r.realloc_ok = true) →
      (stderr_text reads).length < DWORD_SIZE →
      (∀ c ∈ stderr_text reads, c ≠ 0) →
      reports_shown (wWinMain_shutdown ext context reads).2 =
        (if (ext.nvim_call context.nvim .NvimShutdown).exit_code ≠ EXIT_SUCCESS ∧
            stderr_text reads ≠ [] then [stderr_text reads] else [])) := by
  constructor
  · obtain ⟨report, hshape, hrep⟩ := shutdown_shape ext context reads
    rw [hshape]
    exact ⟨rfl, report, rfl, hrep⟩
  · intro hmem hsize hnz
    rw [shutdown_effects ext context reads hmem hsize]
    by_cases hc : (ext.nvim_call context.nvim .NvimShutdown).exit_code ≠ EXIT_SUCCESS ∧
        stderr_text reads ≠ []
    · rw [if_pos hc, if_pos hc]
      simp [reports_shown, c_string_append_zero (stderr_text reads) hnz]
    · rw [if_neg hc, if_neg hc]
      simp [reports_shown]

/-- C8, amended, on the reads "Er", "" and "r" with exit code 1: one report,
with the text "Err". -/
theorem shutdown_reports_diagnostics_once_witness :
    (∀ r ∈ [ReadFile.mk [69, 114] true, ReadFile.mk [] true, ReadFile.mk [114] true],
      r.realloc_ok = true) ∧
    (stderr_text [ReadFile.mk [69, 114] true, ReadFile.mk [] true, ReadFile.mk [114] true]).length
      < DWORD_SIZE ∧
    (∀ c ∈ stderr_text
        [ReadFile.mk [69, 114] true, ReadFile.mk [] true, ReadFile.mk [114] true], c ≠ 0) ∧
    reports_shown (wWinMain_shutdown sampleExternals
        { sampleContext with nvim := { sampleContext.nvim with exit_code := 1 } }
        [ReadFile.mk [69, 114] true, ReadFile.mk [] true, ReadFile.mk [114] true]).2 =
      [[69, 114, 114]] :=
  ⟨by decide, by decide, by decide,
   (shutdown_reports_diagnostics_once sampleExternals
     { sampleContext with nvim := { sampleContext.nvim with exit_code := 1 } }
     [ReadFile.mk [69, 114] true, ReadFile.mk [] true, ReadFile.mk [114] true]).2
     (by decide) (by decide) (by decide)⟩

end ShutdownTheorems

/-! ## Theorems: binary32 arithmetic -/

theorem two_zpow_pos (k : ℤ) : (0 : ℚ) < 2 ^ k := zpow_pos (by norm_num) k

theorem two_zpow_le {m n : ℤ} (h : m ≤ n) : (2 : ℚ) ^ m ≤ 2 ^ n :=
  zpow_le_zpow_right₀ (by norm_num) h

theorem two_zpow_le_iff {m n : ℤ} (h : (2 : ℚ) ^ m ≤ 2 ^ n) : m ≤ n := by
  by_contra hlt
  have h1 : n + 1 ≤ m := by omega
  have h2 : (2 : ℚ) ^ (n + 1) ≤ 2 ^ m := two_zpow_le h1
  have h3 : (2 : ℚ) ^ (n + 1) = 2 ^ n * 2 := zpow_add_one₀ (by norm_num) n
  have h4 := two_zpow_pos n
  linarith

theorem round_half_even_intCast (n : ℤ) : round_half_even (n : ℚ) = n := by
  simp [round_half_even]

theorem floor_le_round_half_even (x : ℚ) : ⌊x⌋ ≤ round_half_even x := by
  unfold round_half_even
  split
  · exact le_refl _
  · split
    · omega
    · split <;> omega

theorem round_half_even_le_ceil (x : ℚ) : round_half_even x ≤ ⌈x⌉ := by
  unfold round_half_even
  split
  · exact Int.floor_le_ceil x
  · rename_i h
    have hlt : (⌊x⌋ : ℚ) < x := by
      have := Int.floor_le x
      rcases lt_or_eq_of_le this with h1 | h1
      · exact h1
      · exfalso
        apply h
        rw [← h1]
        norm_num
    have h2 : ⌊x⌋ < ⌈x⌉ := Int.lt_ceil.mpr hlt
    split
    · omega
    · split
      · exact Int.floor_le_ceil x
      · omega

theorem round_half_even_abs_le (x : ℚ) (N : ℤ) (h : |x| ≤ N) : |round_half_even x| ≤ N := by
  have h1 := abs_le.mp h
  have hf : -N ≤ ⌊x⌋ := Int.le_floor.mpr (by push_cast; exact h1.1)
  have hc : ⌈x⌉ ≤ N := Int.ceil_le.mpr h1.2
  have := floor_le_round_half_even x
  have := round_half_even_le_ceil x
  exact abs_le.mpr ⟨by omega, by omega⟩

theorem ulp_exponent_from_spec (q : ℚ) : ∀ (fuel : ℕ) (k0 : ℤ),
    k0 ≤ ulp_exponent_from q fuel k0 ∧ ulp_exponent_from q fuel k0 ≤ k0 + fuel ∧
    (∀ j, k0 ≤ j → j < ulp_exponent_from q fuel k0 → ¬ |q| < 2 ^ (j + 24)) ∧
    (ulp_exponent_from q fuel k0 < k0 + fuel →
      |q| < 2 ^ (ulp_exponent_from q fuel k0 + 24)) := by
  intro fuel
  induction fuel with
  | zero =>
    intro k0
    simp only [ulp_exponent_from]
    refine ⟨le_refl _, by simp, ?_, ?_⟩
    · intro j h1 h2
      omega
    · intro h
      simp at h
  | succ fuel ih =>
    intro k0
    simp only [ulp_exponent_from]
    by_cases hc : |q| < 2 ^ (k0 + 24)
    · rw [if_pos hc]
      refine ⟨le_refl _, by push_cast; omega, ?_, fun _ => hc⟩
      intro j h1 h2
      omega
    · rw [if_neg hc]
      obtain ⟨h1, h2, h3, h4⟩ := ih (k0 + 1)
      refine ⟨by omega, by push_cast; omega, ?_, ?_⟩
      · intro j hj1 hj2
        by_cases hj : j = k0
        · rw [hj]
          exact hc
        · exact h3 j (by omega) hj2
      · intro h
        exact h4 (by push_cast at h; omega)

theorem ulp_exponent_range (q : ℚ) : -149 ≤ ulp_exponent q ∧ ulp_exponent q ≤ 104 := by
  obtain ⟨h1, h2, _, _⟩ := ulp_exponent_from_spec q 253 (-149)
  unfold ulp_exponent
  constructor
  · exact h1
  · have : (-149 : ℤ) + (253 : ℕ) = 104 := by norm_num
    omega

theorem ulp_exponent_min (q : ℚ) :
    ulp_exponent q = -149 ∨ 2 ^ (ulp_exponent q + 23) ≤ |q| := by
  obtain ⟨h1, _, h3, _⟩ := ulp_exponent_from_spec q 253 (-149)
  unfold ulp_exponent
  by_cases h : ulp_exponent_from q 253 (-149) = -149
  · exact Or.inl h
  · right
    have := h3 (ulp_exponent_from q 253 (-149) - 1) (by omega) (by omega)
    have e : ulp_exponent_from q 253 (-149) - 1 + 24 = ulp_exponent_from q 253 (-149) + 23 := by
      ring
    rw [e] at this
    exact not_lt.mp this

theorem ulp_exponent_lt (q : ℚ) (h : |q| < 2 ^ 128) : |q| < 2 ^ (ulp_exponent q + 24) := by
  obtain ⟨_, h2, _, h4⟩ := ulp_exponent_from_spec q 253 (-149)
  unfold ulp_exponent
  by_cases hk : ulp_exponent_from q 253 (-149) < -149 + (253 : ℕ)
  · exact h4 hk
  · have e : ulp_exponent_from q 253 (-149) = 104 := by
      have : (-149 : ℤ) + (253 : ℕ) = 104 := by norm_num
      omega
    rw [e]
    have : ((2 : ℚ) ^ ((104 : ℤ) + 24)) = 2 ^ 128 := by norm_num
    rw [this]
    exact h

theorem round_finite_of_lt (q : ℚ)
    (h : |(round_half_even (q / 2 ^ ulp_exponent q) : ℚ) * 2 ^ ulp_exponent q| < 2 ^ 128) :
    Float32.round q
      = .finite ((round_half_even (q / 2 ^ ulp_exponent q) : ℚ) * 2 ^ ulp_exponent q) := by
  unfold Float32.round
  rw [if_neg (not_le.mpr h)]

theorem two_zpow_eq_natCast {d : ℤ} (hd : 0 ≤ d) :
    (2 : ℚ) ^ d = (((2 : ℤ) ^ d.toNat : ℤ) : ℚ) := by
  have h : d = (d.toNat : ℤ) := (Int.toNat_of_nonneg hd).symm
  conv_lhs => rw [h]
  rw [zpow_natCast]
  push_cast
  rfl

theorem round_le (q : ℚ) (j : ℤ) (hj1 : -125 ≤ j) (hj2 : j ≤ 127) (h : |q| ≤ 2 ^ j) :
    ∃ r, Float32.round q = .finite r ∧ |r| ≤ 2 ^ j ∧ Float32.Representable r := by
  have hpos := two_zpow_pos (ulp_exponent q)
  have hrange := ulp_exponent_range q
  have h127 : (2 : ℚ) ^ j ≤ 2 ^ (127 : ℤ) := two_zpow_le hj2
  have h128 : (2 : ℚ) ^ (127 : ℤ) < 2 ^ 128 := by norm_num
  have hq128 : |q| < 2 ^ 128 := lt_of_le_of_lt (le_trans h h127) h128
  have hkj : ulp_exponent q ≤ j := by
    rcases ulp_exponent_min q with hk | hk
    · omega
    · have := two_zpow_le_iff (le_trans hk h)
      omega
  -- the scaled value is bounded by an integer power of two
  have hx : |q / 2 ^ ulp_exponent q| ≤ (((2 : ℤ) ^ (j - ulp_exponent q).toNat : ℤ) : ℚ) := by
    rw [← two_zpow_eq_natCast (by omega), abs_div, abs_of_pos hpos, div_le_iff₀ hpos,
      ← zpow_add₀ (by norm_num)]
    have : j - ulp_exponent q + ulp_exponent q = j := by ring
    rw [this]
    exact h
  have hm := round_half_even_abs_le _ _ hx
  have hm' : |(round_half_even (q / 2 ^ ulp_exponent q) : ℚ)|
      ≤ (((2 : ℤ) ^ (j - ulp_exponent q).toNat : ℤ) : ℚ) := by
    rw [← Int.cast_abs]
    exact_mod_cast hm
  have hr : |(round_half_even (q / 2 ^ ulp_exponent q) : ℚ) * 2 ^ ulp_exponent q| ≤ 2 ^ j := by
    rw [abs_mul, abs_of_pos hpos]
    calc |(round_half_even (q / 2 ^ ulp_exponent q) : ℚ)| * 2 ^ ulp_exponent q
        ≤ (((2 : ℤ) ^ (j - ulp_exponent q).toNat : ℤ) : ℚ) * 2 ^ ulp_exponent q :=
          mul_le_mul_of_nonneg_right hm' (le_of_lt hpos)
      _ = 2 ^ j := by
          rw [← two_zpow_eq_natCast (by omega), ← zpow_add₀ (by norm_num)]
          congr 1
          ring
  refine ⟨_, round_finite_of_lt q (lt_of_le_of_lt (le_trans hr h127) h128), hr, ?_⟩
  refine ⟨round_half_even (q / 2 ^ ulp_exponent q), ulp_exponent q, hrange.1, ?_, rfl⟩
  have hlt := ulp_exponent_lt q hq128
  have hx24 : |q / 2 ^ ulp_exponent q| ≤ (((2 : ℤ) ^ 24 : ℤ) : ℚ) := by
    rw [abs_div, abs_of_pos hpos, div_le_iff₀ hpos]
    have e : (((2 : ℤ) ^ 24 : ℤ) : ℚ) * 2 ^ ulp_exponent q = 2 ^ (ulp_exponent q + 24) := by
      rw [zpow_add₀ (by norm_num)]
      push_cast
      rw [mul_comm]
      norm_num
    rw [e]
    exact le_of_lt hlt
  exact round_half_even_abs_le _ _ hx24

theorem round_of_scaled_int (q : ℚ) (n : ℤ) (hq : |q| < 2 ^ 128)
    (hn : q / 2 ^ ulp_exponent q = n) : Float32.round q = .finite q := by
  have hpos := two_zpow_pos (ulp_exponent q)
  have hr : (round_half_even (q / 2 ^ ulp_exponent q) : ℚ) * 2 ^ ulp_exponent q = q := by
    rw [hn, round_half_even_intCast, ← hn]
    field_simp
  have := round_finite_of_lt q (by rw [hr]; exact hq)
  rw [hr] at this
  exact this

theorem round_representable (q : ℚ) (hrep : Float32.Representable q) (hq : |q| < 2 ^ 128) :
    Float32.round q = .finite q := by
  obtain ⟨m, K, hK, hm, rfl⟩ := hrep
  have hposK := two_zpow_pos K
  by_cases hk : ulp_exponent ((m : ℚ) * 2 ^ K) ≤ K
  · -- the spacing is at most `2 ^ K`
    refine round_of_scaled_int _ (m * 2 ^ (K - ulp_exponent ((m : ℚ) * 2 ^ K)).toNat) hq ?_
    have hpos := two_zpow_pos (ulp_exponent ((m : ℚ) * 2 ^ K))
    rw [div_eq_iff (ne_of_gt hpos)]
    push_cast
    have e := two_zpow_eq_natCast (d := K - ulp_exponent ((m : ℚ) * 2 ^ K)) (by omega)
    push_cast at e
    rw [← e, mul_assoc, ← zpow_add₀ (by norm_num)]
    congr 2
    ring
  · -- otherwise `m` is `2 ^ 24` or `-2 ^ 24` and the spacing is `2 ^ (K + 1)`
    have hk1 : K < ulp_exponent ((m : ℚ) * 2 ^ K) := not_le.mp hk
    have hmq : |(m : ℚ)| ≤ 2 ^ 24 := by
      rw [← Int.cast_abs]
      exact_mod_cast hm
    have habs : |(m : ℚ) * 2 ^ K| = |(m : ℚ)| * 2 ^ K := by
      rw [abs_mul, abs_of_pos hposK]
    have hle : |(m : ℚ) * 2 ^ K| ≤ 2 ^ (K + 24) := by
      rw [habs, zpow_add₀ (by norm_num), mul_comm ((2 : ℚ) ^ K)]
      have e24 : (2 : ℚ) ^ (24 : ℤ) = 2 ^ (24 : ℕ) := by norm_num
      rw [e24]
      exact mul_le_mul_of_nonneg_right hmq (le_of_lt hposK)
    rcases ulp_exponent_min ((m : ℚ) * 2 ^ K) with hmin | hmin
    · omega
    · have hkk := two_zpow_le_iff (le_trans hmin hle)
      have hkeq : ulp_exponent ((m : ℚ) * 2 ^ K) = K + 1 := by omega
      rw [hkeq] at hmin
      have e1 : K + 1 + 23 = K + 24 := by ring
      rw [e1] at hmin
      have heq : |(m : ℚ)| * 2 ^ K = 2 ^ (K + 24) := by
        rw [← habs]
        exact le_antisymm hle hmin
      have hm24 : |(m : ℚ)| = 2 ^ 24 := by
        rw [zpow_add₀ (by norm_num), mul_comm ((2 : ℚ) ^ K)] at heq
        have e24 : (2 : ℚ) ^ (24 : ℤ) = 2 ^ (24 : ℕ) := by norm_num
        rw [e24] at heq
        exact mul_right_cancel₀ (ne_of_gt hposK) heq
      have hK1 : (2 : ℚ) ^ (K + 1) = 2 ^ K * 2 := zpow_add_one₀ (by norm_num) K
      rcases abs_eq (by norm_num : (0 : ℚ) ≤ 2 ^ 24) |>.mp hm24 with h1 | h1
      · refine round_of_scaled_int _ (2 ^ 23) hq ?_
        rw [hkeq, h1, hK1, div_eq_iff (by positivity)]
        push_cast
        ring
      · refine round_of_scaled_int _ (-2 ^ 23) hq ?_
        rw [hkeq, h1, hK1, div_eq_iff (by positivity)]
        push_cast
        ring

theorem representable_neg (r : ℚ) (h : Float32.Representable r) :
    Float32.Representable (-r) := by
  obtain ⟨m, k, hk, hm, rfl⟩ := h
  refine ⟨-m, k, hk, by rwa [abs_neg], ?_⟩
  push_cast
  ring

theorem representable_sub_one (a : ℚ) (h : Float32.Representable a) (h1 : 1 ≤ a)
    (h2 : a ≤ 2 ^ 24) : Float32.Representable (a - 1) := by
  obtain ⟨m, K, hK, hm, rfl⟩ := h
  have hposK := two_zpow_pos K
  by_cases hk : K ≤ 0
  · -- `1` is a multiple of `2 ^ K`
    have e : (1 : ℚ) = (((2 : ℤ) ^ (-K).toNat : ℤ) : ℚ) * 2 ^ K := by
      rw [← two_zpow_eq_natCast (by omega), ← zpow_add₀ (by norm_num)]
      simp
    refine ⟨m - 2 ^ (-K).toNat, K, hK, ?_, ?_⟩
    · have hmpos : (0 : ℚ) ≤ ((m - 2 ^ (-K).toNat : ℤ) : ℚ) := by
        have hnn : (0 : ℚ) ≤ ((m - 2 ^ (-K).toNat : ℤ) : ℚ) * 2 ^ K := by
          push_cast
          push_cast at e
          rw [sub_mul, ← e]
          linarith
        exact nonneg_of_mul_nonneg_left hnn hposK
      have hm0 : 0 ≤ m - 2 ^ (-K).toNat := by exact_mod_cast hmpos
      have hp : (0 : ℤ) < 2 ^ (-K).toNat := by positivity
      have hmle : m ≤ 2 ^ 24 := le_trans (le_abs_self m) hm
      rw [abs_of_nonneg hm0]
      omega
    · push_cast
      push_cast at e
      rw [sub_mul, ← e]
  · -- `a` is an integer
    have hK0 : 0 ≤ K := by omega
    have e := two_zpow_eq_natCast (d := K) hK0
    refine ⟨m * 2 ^ K.toNat - 1, 0, by norm_num, ?_, ?_⟩
    · have ha : ((m * 2 ^ K.toNat : ℤ) : ℚ) = (m : ℚ) * 2 ^ K := by
        rw [e]
        push_cast
        rfl
      have h1' : (1 : ℤ) ≤ m * 2 ^ K.toNat := by
        have : ((1 : ℤ) : ℚ) ≤ ((m * 2 ^ K.toNat : ℤ) : ℚ) := by
          rw [ha]
          exact_mod_cast h1
        exact_mod_cast this
      have h2' : m * 2 ^ K.toNat ≤ 2 ^ 24 := by
        have : ((m * 2 ^ K.toNat : ℤ) : ℚ) ≤ (((2 : ℤ) ^ 24 : ℤ) : ℚ) := by
          rw [ha]
          exact_mod_cast h2
        exact_mod_cast this
      rw [abs_of_nonneg (by omega)]
      omega
    · rw [e]
      push_cast
      simp

/-! ## Theorems: the window procedure -/

section WindowTheorems

variable {Node Renderer : Type}

/-- C9: for each of the six mouse button messages, `WndProc` returns
normally having made exactly one call, `NvimSendMouseInput`, with the
message's button (Left, Middle or Right), the action Press for a button-down
message and Release for a button-up message, and the row and column of the
grid point that `RendererCursorToGridPoint` gives for the cursor position in
`lparam`. Nothing else is sent, and only the connection changes. -/
theorem button_message_sends_one_mouse_input (ext : Externals Node Renderer)
    (context : Context Renderer) (msg : ButtonMessage) (lparam : Nat) :
    WndProc ext context (.button msg lparam) =
      .ok ({ context with
             nvim := ext.nvim_call context.nvim
               (.NvimSendMouseInput msg.button msg.action
                 (ext.RendererCursorToGridPoint context.renderer
                   (MAKEPOINTS lparam).x (MAKEPOINTS lparam).y).row
                 (ext.RendererCursorToGridPoint context.renderer
                   (MAKEPOINTS lparam).x (MAKEPOINTS lparam).y).col) },
           [Effect.nvim
             (.NvimSendMouseInput msg.button msg.action
               (ext.RendererCursorToGridPoint context.renderer
                 (MAKEPOINTS lparam).x (MAKEPOINTS lparam).y).row
               (ext.RendererCursorToGridPoint context.renderer
                 (MAKEPOINTS lparam).x (MAKEPOINTS lparam).y).col)]) := by
  cases msg <;> rfl

/-- C10: for a `WM_CHAR` message with character code `wparam`, `WndProc`
returns normally having made exactly one call: `NvimSendInput` with "<LT>"
when the code is 0x3C, `NvimSendInput` with "<Nul>" when the code is 0, and
otherwise `NvimSendChar` with the code as a `wchar_t` (the code itself for
every 16-bit character code). In all three cases `dead_char_pending` is
false afterwards. -/
theorem wm_char_sends_one_input (ext : Externals Node Renderer)
    (context : Context Renderer) (wparam : Nat) :
    ∃ c, WndProc ext context (.WM_CHAR wparam) =
        .ok (c, [Effect.nvim
          (if wparam = 0x3C then .NvimSendInput "<LT>"
           else if wparam = 0 then .NvimSendInput "<Nul>"
           else .NvimSendChar (wparam % 65536))]) ∧
      c.dead_char_pending = false := by
  refine ⟨{ context with
             dead_char_pending := false
             nvim := ext.nvim_call context.nvim
               (if wparam = 0x3C then .NvimSendInput "<LT>"
                else if wparam = 0 then .NvimSendInput "<Nul>"
                else .NvimSendChar (wparam % 65536)) }, ?_, rfl⟩
  by_cases h1 : wparam = 0x3C
  · simp only [WndProc, h1, if_true, callNvim]
  · by_cases h2 : wparam = 0
    · subst h2
      simp [WndProc, callNvim]
    · simp only [WndProc, h1, h2, if_false, callNvim, wchar_t]

/-- C11: `SendResizeIfNecessary(context, rows, cols)` returns true if and
only if the renderer's grid is initialised and `(rows, cols)` differs from
the renderer's `(grid_rows, grid_cols)`; when it returns true it has made
exactly one call, `NvimSendResize` with the requested `rows` and `cols`, and
when it returns false it has made none. The renderer and every field of the
context are as before; only the connection that `context->nvim` points to
has seen the call. -/
theorem send_resize_iff_initialized_and_differs (ext : Externals Node Renderer)
    (context : Context Renderer) (rows cols : Int) :
    ((SendResizeIfNecessary ext context rows cols).1 = true ↔
      (ext.grid_initialized context.renderer = true ∧
        (rows, cols) ≠ (ext.grid_rows context.renderer, ext.grid_cols context.renderer))) ∧
    (SendResizeIfNecessary ext context rows cols).2.2 =
      (if (SendResizeIfNecessary ext context rows cols).1 = true then
        [Effect.nvim (.NvimSendResize rows cols)]
       else []) ∧
    (SendResizeIfNecessary ext context rows cols).2.1 =
      (if (SendResizeIfNecessary ext context rows cols).1 = true then
        { context with nvim := ext.nvim_call context.nvim (.NvimSendResize rows cols) }
       else context) := by
  by_cases hi : ext.grid_initialized context.renderer = false
  · simp [SendResizeIfNecessary, hi]
  · have hi1 : ext.grid_initialized context.renderer = true := by
      simpa using hi
    by_cases hd : rows ≠ ext.grid_rows context.renderer ∨ cols ≠ ext.grid_cols context.renderer
    · have hne : (rows, cols) ≠
          (ext.grid_rows context.renderer, ext.grid_cols context.renderer) := by
        intro heq
        simp only [Prod.mk.injEq] at heq
        rcases hd with hd | hd
        · exact hd heq.1
        · exact hd heq.2
      simp only [SendResizeIfNecessary, hi1, Bool.true_eq_false, if_false, hd, if_true, callNvim]
      exact ⟨⟨fun _ => ⟨trivial, hne⟩, fun _ => trivial⟩, trivial, trivial⟩
    · have heq : (rows, cols) =
          (ext.grid_rows context.renderer, ext.grid_cols context.renderer) := by
        simp only [not_or, ne_eq, not_not] at hd
        rw [hd.1, hd.2]
      simp only [SendResizeIfNecessary, hi1, Bool.true_eq_false, if_false, hd]
      exact ⟨⟨fun h => absurd h (by simp), fun h => absurd heq h.2⟩, rfl, rfl⟩

theorem SHORT_range (w : Nat) : -32768 ≤ SHORT w ∧ SHORT w ≤ 32767 := by
  unfold SHORT
  split <;> constructor <;> omega

theorem of_int_small (i : Int) (h : |i| ≤ 2 ^ 24) : Float32.of_int i = .finite i := by
  unfold Float32.of_int
  apply round_representable
  · exact ⟨i, 0, by norm_num, h, by simp⟩
  · have h1 : |(i : ℚ)| ≤ 2 ^ 24 := by
      rw [← Int.cast_abs]
      exact_mod_cast h
    exact lt_of_le_of_lt h1 (by norm_num)

theorem drain_scroll_wheel (ext : Externals Node Renderer) (action : MouseAction)
    (row col : Int) (σ : ℚ) (hσ : σ = 1 ∨ σ = -1) :
    ∀ (n : ℕ) (a : ℚ) (context : Context Renderer) (fuel : ℕ),
      context.buffered_scroll_amount = .finite a → 0 ≤ σ * a → |a| ≤ 2 ^ 24 →
      Float32.Representable a → ⌊|a|⌋₊ = n → n < fuel →
      ∃ c, drain_scroll ext false (.finite σ) action row col fuel context =
          some (c, List.replicate n
            (Effect.nvim (.NvimSendMouseInput .Wheel action row col))) ∧
        c.buffered_scroll_amount = .finite (a - σ * n) := by
  have habs : ∀ a : ℚ, 0 ≤ σ * a → |a| = σ * a := by
    intro a ha
    rcases hσ with h | h <;> rw [h] at ha ⊢
    · rw [one_mul] at ha ⊢
      exact abs_of_nonneg ha
    · have : a ≤ 0 := by linarith
      rw [abs_of_nonpos this]
      ring
  have hturns : for_turns (Float32.finite σ).abs = 1 := by
    rcases hσ with h | h <;> rw [h] <;> simp [for_turns, Float32.abs]
  intro n
  induction n with
  | zero =>
    intro a context fuel hb _ _ _ hn hfuel
    obtain ⟨f, rfl⟩ : ∃ f, fuel = f + 1 := ⟨fuel - 1, by omega⟩
    have hlt : |a| < 1 := Nat.floor_eq_zero.mp hn
    refine ⟨context, ?_, by rw [hb]; simp⟩
    simp only [drain_scroll, hb, Float32.abs, Float32.le]
    rw [if_neg (by simpa using hlt)]
    rfl
  | succ n ih =>
    intro a context fuel hb hsign hbound hrep hn hfuel
    obtain ⟨f, rfl⟩ : ∃ f, fuel = f + 1 := ⟨fuel - 1, by omega⟩
    have hge : 1 ≤ |a| := Nat.floor_pos.mp (by rw [hn]; exact Nat.succ_pos n)
    have hσ2 : σ * σ = 1 := by
      rcases hσ with h | h <;> rw [h] <;> norm_num
    -- the subtraction is exact
    have hrep1 : Float32.Representable (a - σ) := by
      rcases hσ with h | h
      · rw [h] at hsign ⊢
        rw [one_mul] at hsign
        rw [abs_of_nonneg hsign] at hge hbound
        exact representable_sub_one a hrep hge hbound
      · rw [h] at hsign ⊢
        have hneg : a ≤ 0 := by linarith
        rw [abs_of_nonpos hneg] at hge hbound
        have := representable_neg _
          (representable_sub_one (-a) (representable_neg a hrep) hge hbound)
        have e : -(-a - 1) = a - -1 := by ring
        rw [e] at this
        exact this
    have habs1 : |a - σ| = |a| - 1 := by
      have h0 : 0 ≤ σ * (a - σ) := by
        rw [mul_sub, hσ2, ← habs a hsign]
        linarith
      rw [habs (a - σ) h0, mul_sub, hσ2, ← habs a hsign]
    have hsub : (Float32.finite a).sub (.finite σ) = .finite (a - σ) := by
      simp only [Float32.sub, Float32.neg, Float32.add]
      rw [← sub_eq_add_neg]
      apply round_representable _ hrep1
      rw [habs1]
      have : (2 : ℚ) ^ 24 < 2 ^ 128 := by norm_num
      linarith
    obtain ⟨c, hd, hc⟩ := ih (a - σ)
      { context with
        nvim := ext.nvim_call context.nvim (.NvimSendMouseInput .Wheel action row col)
        buffered_scroll_amount := .finite (a - σ) }
      f rfl
      (by rw [mul_sub, hσ2, ← habs a hsign]; linarith)
      (by rw [habs1]; linarith)
      hrep1
      (by rw [habs1, Nat.floor_sub_one, hn]; rfl)
      (by omega)
    refine ⟨c, ?_, ?_⟩
    · simp only [drain_scroll, hb, Float32.abs, Float32.le]
      rw [if_pos (by simpa using hge)]
      simp only [wheel_step, Bool.false_eq_true, if_false, callNvimTimes, hturns,
        Function.iterate_one, List.replicate_one, hb, hsub]
      rw [hd]
      rfl
    · rw [hc]
      congr 1
      push_cast
      ring

theorem round_finite_representable (q r : ℚ) (h : Float32.round q = .finite r) :
    Float32.Representable r := by
  have hpos := two_zpow_pos (ulp_exponent q)
  have hrange := ulp_exponent_range q
  unfold Float32.round at h
  split at h
  · cases h
  · rename_i hlt
    injection h with h
    subst h
    refine ⟨round_half_even (q / 2 ^ ulp_exponent q), ulp_exponent q, hrange.1, ?_, rfl⟩
    have e : (((2 : ℤ) ^ 24 : ℤ) : ℚ) * 2 ^ ulp_exponent q = 2 ^ (ulp_exponent q + 24) := by
      rw [zpow_add₀ (by norm_num)]
      push_cast
      rw [mul_comm]
      norm_num
    by_cases hk : ulp_exponent q = 104
    · -- the cap: the rounded value itself is below 2 ^ 128
      have h1 : |(round_half_even (q / 2 ^ ulp_exponent q) : ℚ)| * 2 ^ ulp_exponent q
          < 2 ^ 128 := by
        have := not_le.mp hlt
        rwa [abs_mul, abs_of_pos hpos] at this
      have h2 : (2 : ℚ) ^ 128 = (((2 : ℤ) ^ 24 : ℤ) : ℚ) * 2 ^ ulp_exponent q := by
        rw [e, hk]
        norm_num
      rw [h2] at h1
      have h3 := lt_of_mul_lt_mul_right h1 (le_of_lt hpos)
      rw [← Int.cast_abs] at h3
      have h4 : |round_half_even (q / 2 ^ ulp_exponent q)| < (2 : ℤ) ^ 24 := by
        exact_mod_cast h3
      exact le_of_lt h4
    · have hq : |q| < 2 ^ (ulp_exponent q + 24) := by
        obtain ⟨_, _, _, h4⟩ := ulp_exponent_from_spec q 253 (-149)
        have hlt104 : ulp_exponent_from q 253 (-149) < -149 + (253 : ℕ) := by
          have : ulp_exponent q = ulp_exponent_from q 253 (-149) := rfl
          push_cast
          omega
        exact h4 hlt104
      have hx24 : |q / 2 ^ ulp_exponent q| ≤ (((2 : ℤ) ^ 24 : ℤ) : ℚ) := by
        rw [abs_div, abs_of_pos hpos, div_le_iff₀ hpos, e]
        exact le_of_lt hq
      exact round_half_even_abs_le _ _ hx24

theorem add_finite_representable (x y : Float32) (a : ℚ) (h : x.add y = .finite a) :
    Float32.Representable a := by
  rcases x with b | s | _ <;> rcases y with w | t | _
  · exact round_finite_representable (b + w) a h
  all_goals first
    | (simp only [Float32.add] at h; cases h)
    | (simp only [Float32.add] at h; split at h <;> cases h)

theorem ulp_exponent_eq (q : ℚ) (K : ℤ) (h1 : -149 ≤ K) (h2 : K ≤ 104)
    (hlt : |q| < 2 ^ (K + 24)) (hmin : K = -149 ∨ 2 ^ (K + 23) ≤ |q|) :
    ulp_exponent q = K := by
  have hrange := ulp_exponent_range q
  have h128 : |q| < 2 ^ 128 := by
    have : (2 : ℚ) ^ (K + 24) ≤ 2 ^ (128 : ℤ) := two_zpow_le (by omega)
    have e : (2 : ℚ) ^ (128 : ℤ) = 2 ^ 128 := by norm_num
    rw [e] at this
    exact lt_of_lt_of_le hlt this
  have hlt2 := ulp_exponent_lt q h128
  rcases lt_trichotomy (ulp_exponent q) K with hc | hc | hc
  · exfalso
    rcases hmin with hK | hK
    · omega
    · have h3 : (2 : ℚ) ^ (ulp_exponent q + 24) ≤ 2 ^ (K + 23) := two_zpow_le (by omega)
      exact absurd (lt_of_le_of_lt (le_trans h3 hK) hlt2) (lt_irrefl _)
  · exact hc
  · exfalso
    rcases ulp_exponent_min q with hk | hk
    · omega
    · have h3 : (2 : ℚ) ^ (K + 24) ≤ 2 ^ (ulp_exponent q + 23) := two_zpow_le (by omega)
      exact absurd (lt_of_le_of_lt (le_trans h3 hk) hlt) (lt_irrefl _)

theorem round_eval (q : ℚ) (K m : ℤ) (h1 : -149 ≤ K) (h2 : K ≤ 104)
    (hlt : |q| < 2 ^ (K + 24)) (hmin : K = -149 ∨ 2 ^ (K + 23) ≤ |q|)
    (hm : round_half_even (q / 2 ^ K) = m) (hfin : |(m : ℚ) * 2 ^ K| < 2 ^ 128) :
    Float32.round q = .finite ((m : ℚ) * 2 ^ K) := by
  have hk := ulp_exponent_eq q K h1 h2 hlt hmin
  have := round_finite_of_lt q (by rw [hk, hm]; exact hfin)
  rw [hk, hm] at this
  exact this

/-- The quotient 40 / 120 in binary32 is 11184811 / 2 ^ 25 (0x3EAAAAAB). -/
theorem round_third : Float32.round (40 / 120) = .finite (11184811 / 33554432) := by
  have hfl : ⌊(40 / 120 : ℚ) / 2 ^ (-25 : ℤ)⌋ = 11184810 :=
    Int.floor_eq_iff.mpr ⟨by norm_num, by norm_num⟩
  have hm : round_half_even ((40 / 120 : ℚ) / 2 ^ (-25 : ℤ)) = 11184811 := by
    unfold round_half_even
    rw [hfl]
    norm_num
  have := round_eval (40 / 120) (-25) 11184811 (by norm_num) (by norm_num)
    (by norm_num [abs_lt]) (Or.inr (by norm_num [le_abs])) hm (by norm_num [abs_lt])
  rw [this]
  norm_num

/-- The sum 0x3F2AAAAA + 0x3EAAAAAB lies half way between two binary32 values and rounds
to the even one, which is 1. -/
theorem round_tie_to_one :
    Float32.round (11184810 / 16777216 + 11184811 / 33554432) = .finite 1 := by
  have hfl : ⌊(11184810 / 16777216 + 11184811 / 33554432 : ℚ) / 2 ^ (-24 : ℤ)⌋ = 16777215 :=
    Int.floor_eq_iff.mpr ⟨by norm_num, by norm_num⟩
  have hm : round_half_even ((11184810 / 16777216 + 11184811 / 33554432 : ℚ) / 2 ^ (-24 : ℤ))
      = 16777216 := by
    unfold round_half_even
    rw [hfl]
    norm_num
  have := round_eval (11184810 / 16777216 + 11184811 / 33554432) (-24) 16777216
    (by norm_num) (by norm_num)
    (by norm_num [abs_lt]) (Or.inr (by norm_num [le_abs])) hm (by norm_num [abs_lt])
  rw [this]
  norm_num

/-- Above 2 ^ 24 the binary32 values are two or more apart: 2 ^ 25 - 1 lies half way between
2 ^ 25 - 2 and 2 ^ 25 and rounds back to 2 ^ 25. -/
theorem round_stuck : Float32.round (33554432 + -1) = .finite 33554432 := by
  have hfl : ⌊(33554432 + -1 : ℚ) / 2 ^ (1 : ℤ)⌋ = 16777215 :=
    Int.floor_eq_iff.mpr ⟨by norm_num, by norm_num⟩
  have hm : round_half_even ((33554432 + -1 : ℚ) / 2 ^ (1 : ℤ)) = 16777216 := by
    unfold round_half_even
    rw [hfl]
    norm_num
  have := round_eval (33554432 + -1) 1 16777216 (by norm_num) (by norm_num)
    (by norm_num [abs_lt]) (Or.inr (by norm_num [le_abs])) hm (by norm_num [abs_lt])
  rw [this]
  norm_num

theorem wheel_amount (wparam : Nat) (d : Int) (hd : GET_WHEEL_DELTA_WPARAM wparam = d) :
    (Float32.of_int (GET_WHEEL_DELTA_WPARAM wparam)).div (Float32.of_int WHEEL_DELTA)
      = Float32.round ((d : ℚ) / 120) := by
  have hδ := SHORT_range (HIWORD wparam)
  have hδabs : |GET_WHEEL_DELTA_WPARAM wparam| ≤ 32768 := by
    unfold GET_WHEEL_DELTA_WPARAM
    exact abs_le.mpr ⟨by omega, by omega⟩
  have h1 : Float32.of_int (GET_WHEEL_DELTA_WPARAM wparam)
      = .finite (GET_WHEEL_DELTA_WPARAM wparam) :=
    of_int_small _ (le_trans hδabs (by norm_num))
  have h2 : Float32.of_int WHEEL_DELTA = .finite 120 := by
    have := of_int_small WHEEL_DELTA (by unfold WHEEL_DELTA; norm_num)
    rw [this]
    simp [WHEEL_DELTA]
  rw [h1, h2, hd]
  simp only [Float32.div]
  rw [if_neg (by norm_num)]

/-- From an accumulator of magnitude at most 2 ^ 23 the updated accumulator is finite and of
magnitude at most 2 ^ 24, whatever the wheel delta: every accumulator the handler itself
leaves behind (magnitude below 1) is in this range. -/
theorem wheel_accumulator_in_range (wparam : Nat) (b : ℚ) (hbound : |b| ≤ 2 ^ 23) :
    ∃ a : ℚ,
      (Float32.finite b).add
        ((Float32.of_int (GET_WHEEL_DELTA_WPARAM wparam)).div (Float32.of_int WHEEL_DELTA))
        = .finite a ∧ |a| ≤ 2 ^ 24 := by
  have hδ := SHORT_range (HIWORD wparam)
  have hδabs : |GET_WHEEL_DELTA_WPARAM wparam| ≤ 32768 := by
    unfold GET_WHEEL_DELTA_WPARAM
    exact abs_le.mpr ⟨by omega, by omega⟩
  have hδq : |(GET_WHEEL_DELTA_WPARAM wparam : ℚ)| ≤ 32768 := by
    rw [← Int.cast_abs]
    exact_mod_cast hδabs
  obtain ⟨w, hw, hwle, _⟩ := round_le ((GET_WHEEL_DELTA_WPARAM wparam : ℚ) / 120) 9
    (by norm_num) (by norm_num)
    (by
      rw [abs_div, abs_of_pos (by norm_num : (0 : ℚ) < 120), div_le_iff₀ (by norm_num)]
      have : (32768 : ℚ) ≤ 2 ^ (9 : ℤ) * 120 := by norm_num
      linarith)
  obtain ⟨a, ha, hale, _⟩ := round_le (b + w) 24 (by norm_num) (by norm_num)
    (by
      have h9 : (2 : ℚ) ^ (9 : ℤ) = 512 := by norm_num
      have h24 : (2 : ℚ) ^ (24 : ℤ) = 16777216 := by norm_num
      have h23 : (2 : ℚ) ^ 23 = 8388608 := by norm_num
      rw [h9] at hwle
      rw [h23] at hbound
      rw [h24]
      calc |b + w| ≤ |b| + |w| := abs_add b w
        _ ≤ 16777216 := by linarith)
  refine ⟨a, ?_, ?_⟩
  · rw [wheel_amount wparam _ rfl, hw]
    exact ha
  · have h24 : (2 : ℚ) ^ (24 : ℤ) = 2 ^ 24 := by norm_num
    rw [← h24]
    exact hale

theorem mouse_wheel_spec (ext : Externals Node Renderer)
    (context : Context Renderer) (wparam lparam : Nat) (a : ℚ)
    (hacc : context.buffered_scroll_amount.add
        ((Float32.of_int (GET_WHEEL_DELTA_WPARAM wparam)).div (Float32.of_int WHEEL_DELTA))
        = .finite a)
    (hbound : |a| ≤ 2 ^ 24) :
    ∀ fuel, ⌊|a|⌋₊ < fuel →
      ∃ c, WndProc_WM_MOUSEWHEEL ext fuel context wparam lparam false =
          some (c, List.replicate ⌊|a|⌋₊
            (Effect.nvim (.NvimSendMouseInput .Wheel
              (if 0 < a then .MouseWheelUp else .MouseWheelDown)
              (ext.RendererCursorToGridPoint context.renderer
                (ext.ScreenToClient context.hwnd
                  { x := (MAKEPOINTS lparam).x, y := (MAKEPOINTS lparam).y }).x
                (ext.ScreenToClient context.hwnd
                  { x := (MAKEPOINTS lparam).x, y := (MAKEPOINTS lparam).y }).y).row
              (ext.RendererCursorToGridPoint context.renderer
                (ext.ScreenToClient context.hwnd
                  { x := (MAKEPOINTS lparam).x, y := (MAKEPOINTS lparam).y }).x
                (ext.ScreenToClient context.hwnd
                  { x := (MAKEPOINTS lparam).x, y := (MAKEPOINTS lparam).y }).y).col))) ∧
        c.buffered_scroll_amount
          = .finite (a - (if 0 < a then 1 else -1) * (⌊|a|⌋₊ : ℚ)) ∧
        |a - (if 0 < a then 1 else -1) * (⌊|a|⌋₊ : ℚ)| < 1 := by
  have harep := add_finite_representable _ _ a hacc
  intro fuel hfuel
  by_cases hp : 0 < a
  · obtain ⟨c, hd, hc⟩ := drain_scroll_wheel ext .MouseWheelUp
      (ext.RendererCursorToGridPoint context.renderer
        (ext.ScreenToClient context.hwnd
          { x := (MAKEPOINTS lparam).x, y := (MAKEPOINTS lparam).y }).x
        (ext.ScreenToClient context.hwnd
          { x := (MAKEPOINTS lparam).x, y := (MAKEPOINTS lparam).y }).y).row
      (ext.RendererCursorToGridPoint context.renderer
        (ext.ScreenToClient context.hwnd
          { x := (MAKEPOINTS lparam).x, y := (MAKEPOINTS lparam).y }).x
        (ext.ScreenToClient context.hwnd
          { x := (MAKEPOINTS lparam).x, y := (MAKEPOINTS lparam).y }).y).col
      1 (Or.inl rfl) ⌊|a|⌋₊ a
      { context with buffered_scroll_amount := .finite a }
      fuel rfl (by linarith) hbound harep rfl hfuel
    refine ⟨c, ?_, ?_, ?_⟩
    · simp only [WndProc_WM_MOUSEWHEEL, hacc, Float32.lt, hp, decide_True, if_true]
      exact hd
    · rw [hc, if_pos hp]
    · rw [if_pos hp, abs_of_pos hp, one_mul]
      have h1 := Nat.floor_le (le_of_lt hp)
      have h2 := Nat.lt_floor_add_one a
      rw [abs_lt]
      constructor <;> linarith
  · have hn : a ≤ 0 := not_lt.mp hp
    obtain ⟨c, hd, hc⟩ := drain_scroll_wheel ext .MouseWheelDown
      (ext.RendererCursorToGridPoint context.renderer
        (ext.ScreenToClient context.hwnd
          { x := (MAKEPOINTS lparam).x, y := (MAKEPOINTS lparam).y }).x
        (ext.ScreenToClient context.hwnd
          { x := (MAKEPOINTS lparam).x, y := (MAKEPOINTS lparam).y }).y).row
      (ext.RendererCursorToGridPoint context.renderer
        (ext.ScreenToClient context.hwnd
          { x := (MAKEPOINTS lparam).x, y := (MAKEPOINTS lparam).y }).x
        (ext.ScreenToClient context.hwnd
          { x := (MAKEPOINTS lparam).x, y := (MAKEPOINTS lparam).y }).y).col
      (-1) (Or.inr rfl) ⌊|a|⌋₊ a
      { context with buffered_scroll_amount := .finite a }
      fuel rfl (by linarith) hbound harep rfl hfuel
    refine ⟨c, ?_, ?_, ?_⟩
    · simp only [WndProc_WM_MOUSEWHEEL, hacc, Float32.lt, hp, decide_False,
        Bool.false_eq_true, if_false]
      exact hd
    · rw [hc, if_neg hp]
    · rw [if_neg hp, abs_of_nonpos hn]
      have h0 : (0 : ℚ) ≤ -a := by linarith
      have h1 := Nat.floor_le h0
      have h2 := Nat.lt_floor_add_one (-a)
      rw [abs_lt]
      constructor <;> linarith

theorem drain_scroll_stuck (ext : Externals Node Renderer) (action : MouseAction)
    (row col : Int) :
    ∀ (fuel : ℕ) (context : Context Renderer),
      context.buffered_scroll_amount = .finite 33554432 →
      drain_scroll ext false (.finite 1) action row col fuel context = none := by
  intro fuel
  induction fuel with
  | zero =>
    intro context _
    rfl
  | succ f ih =>
    intro context hb
    have hsub : (Float32.finite 33554432).sub (.finite 1) = .finite 33554432 := by
      simp only [Float32.sub, Float32.neg, Float32.add]
      exact round_stuck
    have hturns : for_turns (Float32.finite 1).abs = 1 := by
      simp [for_turns, Float32.abs]
    have := ih
      { context with
        nvim := ext.nvim_call context.nvim (.NvimSendMouseInput .Wheel action row col)
        buffered_scroll_amount := .finite 33554432 } rfl
    simp only [drain_scroll, hb, Float32.abs, Float32.le]
    rw [if_pos (by norm_num)]
    simp only [wheel_step, Bool.false_eq_true, if_false, callNvimTimes, hturns,
      Function.iterate_one, List.replicate_one, hb, hsub]
    rw [this]

theorem wheel_accumulator_tie :
    (Float32.finite (11184810 / 16777216)).add
      ((Float32.of_int (GET_WHEEL_DELTA_WPARAM 2621440)).div (Float32.of_int WHEEL_DELTA))
      = .finite 1 := by
  rw [wheel_amount 2621440 40 (by decide)]
  have e : (((40 : ℤ) : ℚ)) / 120 = 40 / 120 := by norm_num
  rw [e, round_third]
  simp only [Float32.add]
  exact round_tie_to_one

theorem wheel_accumulator_large :
    (Float32.finite 33554432).add
      ((Float32.of_int (GET_WHEEL_DELTA_WPARAM 0)).div (Float32.of_int WHEEL_DELTA))
      = .finite 33554432 := by
  rw [wheel_amount 0 0 (by decide)]
  have e : (((0 : ℤ) : ℚ)) / 120 = 0 := by norm_num
  rw [e, round_representable 0 ⟨0, 0, by norm_num, by norm_num, by norm_num⟩ (by norm_num)]
  simp only [Float32.add, add_zero]
  exact round_representable 33554432 ⟨16777216, 1, by norm_num, by norm_num, by norm_num⟩
    (by norm_num [abs_lt])

theorem wheel_accumulator_three :
    (Float32.finite (1 / 2)).add
      ((Float32.of_int (GET_WHEEL_DELTA_WPARAM 19660800)).div (Float32.of_int WHEEL_DELTA))
      = .finite 3 := by
  rw [wheel_amount 19660800 300 (by decide)]
  have e : (((300 : ℤ) : ℚ)) / 120 = 5 / 2 := by norm_num
  rw [e, round_representable (5 / 2) ⟨5, -1, by norm_num, by norm_num, by norm_num⟩
    (by norm_num [abs_lt])]
  simp only [Float32.add]
  have e2 : (1 / 2 : ℚ) + 5 / 2 = 3 := by norm_num
  rw [e2]
  exact round_representable 3 ⟨3, 0, by norm_num, by norm_num, by norm_num⟩
    (by norm_num [abs_lt])

/-- C12, counterexample. The count is not the whole part of the rational sum, and the loop
does not end from every accumulator. With the accumulator at 11184810 / 2 ^ 24 (the binary32
value 0x3F2AAAAA) and a wheel delta of 40, the rational sum is below one, so the claim's
count is 0; in binary32 the quotient 40 / 120 and then the sum round up, the updated
accumulator is exactly 1, and the handler sends one MouseWheelUp command. With the
accumulator at 2 ^ 25 and a wheel delta of 0, subtracting 1 gives back 2 ^ 25, so the loop
comes to no result whatever the number of turns it is allowed (in the first case two turns
or more all give the same result). -/
theorem mouse_wheel_count_differs_from_rational_sum :
    GET_WHEEL_DELTA_WPARAM 2621440 = 40 ∧
    (∀ fuel,
      (WndProc_WM_MOUSEWHEEL sampleExternals (fuel + 2)
        { sampleContext with buffered_scroll_amount := .finite (11184810 / 16777216) }
        2621440 0 false).map Prod.snd
        = some [Effect.nvim (.NvimSendMouseInput .Wheel .MouseWheelUp 0 0)]) ∧
    ⌊|(11184810 / 16777216 : ℚ) + 40 / (WHEEL_DELTA : ℚ)|⌋₊ = 0 ∧
    (∀ fuel, WndProc_WM_MOUSEWHEEL sampleExternals fuel
        { sampleContext with buffered_scroll_amount := .finite 33554432 } 0 0 false
        = none) := by
  refine ⟨by decide, ?_, ?_, ?_⟩
  · intro fuel
    obtain ⟨c, h, _⟩ := mouse_wheel_spec sampleExternals
      { sampleContext with buffered_scroll_amount := .finite (11184810 / 16777216) }
      2621440 0 1 wheel_accumulator_tie (by norm_num) (fuel + 2)
      (by rw [abs_one, Nat.floor_one]; omega)
    rw [h]
    simp only [Option.map_some', abs_one, Nat.floor_one, List.replicate_one, zero_lt_one,
      if_true]
    rfl
  · apply Nat.floor_eq_zero.mpr
    norm_num [WHEEL_DELTA, abs_lt]
  · intro fuel
    simp only [WndProc_WM_MOUSEWHEEL, wheel_accumulator_large, Float32.lt]
    rw [if_pos (by norm_num), if_pos (by norm_num)]
    exact drain_scroll_stuck sampleExternals _ _ _ fuel _ rfl

/-- C12, amended. A WM_MOUSEWHEEL message handled without the control key, where the updated
accumulator, computed in binary32 as the code computes it (the accumulator before the
message plus the quotient of the wheel delta and WHEEL_DELTA), is a finite number `a` of
magnitude at most 2 ^ 24: the drain loop ends (any allowance of more than floor |a| turns
gives a result, and the same one), it sends exactly floor |a| wheel mouse-input commands at
the grid position of the cursor, all MouseWheelUp when `a` is positive and all
MouseWheelDown otherwise, and it leaves in `buffered_scroll_amount` the value `a` minus the
signed number of commands sent, of magnitude strictly below 1. -/
theorem mouse_wheel_drains_buffered_scroll (ext : Externals Node Renderer)
    (context : Context Renderer) (wparam lparam : Nat) (a : ℚ)
    (hacc : context.buffered_scroll_amount.add
        ((Float32.of_int (GET_WHEEL_DELTA_WPARAM wparam)).div (Float32.of_int WHEEL_DELTA))
        = .finite a)
    (hbound : |a| ≤ 2 ^ 24) :
    ∀ fuel, ⌊|a|⌋₊ < fuel →
      ∃ c, WndProc_WM_MOUSEWHEEL ext fuel context wparam lparam false =
          some (c, List.replicate ⌊|a|⌋₊
            (Effect.nvim (.NvimSendMouseInput .Wheel
              (if 0 < a then .MouseWheelUp else .MouseWheelDown)
              (ext.RendererCursorToGridPoint context.renderer
                (ext.ScreenToClient context.hwnd
                  { x := (MAKEPOINTS lparam).x, y := (MAKEPOINTS lparam).y }).x
                (ext.ScreenToClient context.hwnd
                  { x := (MAKEPOINTS lparam).x, y := (MAKEPOINTS lparam).y }).y).row
              (ext.RendererCursorToGridPoint context.renderer
                (ext.ScreenToClient context.hwnd
                  { x := (MAKEPOINTS lparam).x, y := (MAKEPOINTS lparam).y }).x
                (ext.ScreenToClient context.hwnd
                  { x := (MAKEPOINTS lparam).x, y := (MAKEPOINTS lparam).y }).y).col))) ∧
        c.buffered_scroll_amount
          = .finite (a - (if 0 < a then 1 else -1) * (⌊|a|⌋₊ : ℚ)) ∧
        |a - (if 0 < a then 1 else -1) * (⌊|a|⌋₊ : ℚ)| < 1 :=
  mouse_wheel_spec ext context wparam lparam a hacc hbound

/-- C12, witness: the accumulator at 1 / 2 and a wheel delta of 300 give the updated
accumulator 3, which is in range; four turns are allowed. -/
theorem mouse_wheel_drains_buffered_scroll_witness :
    ({ sampleContext with buffered_scroll_amount := .finite (1 / 2) } :
        Context Nat).buffered_scroll_amount.add
      ((Float32.of_int (GET_WHEEL_DELTA_WPARAM 19660800)).div (Float32.of_int WHEEL_DELTA))
      = .finite 3 ∧
    |(3 : ℚ)| ≤ 2 ^ 24 ∧
    ⌊|(3 : ℚ)|⌋₊ < 4 ∧
    ∃ c, WndProc_WM_MOUSEWHEEL sampleExternals 4
        { sampleContext with buffered_scroll_amount := .finite (1 / 2) } 19660800 0 false =
        some (c, List.replicate ⌊|(3 : ℚ)|⌋₊
          (Effect.nvim (.NvimSendMouseInput .Wheel
            (if 0 < (3 : ℚ) then .MouseWheelUp else .MouseWheelDown)
            (sampleExternals.RendererCursorToGridPoint
              ({ sampleContext with buffered_scroll_amount := .finite (1 / 2) } :
                Context Nat).renderer
              (sampleExternals.ScreenToClient
                ({ sampleContext with buffered_scroll_amount := .finite (1 / 2) } :
                  Context Nat).hwnd
                { x := (MAKEPOINTS 0).x, y := (MAKEPOINTS 0).y }).x
              (sampleExternals.ScreenToClient
                ({ sampleContext with buffered_scroll_amount := .finite (1 / 2) } :
                  Context Nat).hwnd
                { x := (MAKEPOINTS 0).x, y := (MAKEPOINTS 0).y }).y).row
            (sampleExternals.RendererCursorToGridPoint
              ({ sampleContext with buffered_scroll_amount := .finite (1 / 2) } :
                Context Nat).renderer
              (sampleExternals.ScreenToClient
                ({ sampleContext with buffered_scroll_amount := .finite (1 / 2) } :
                  Context Nat).hwnd
                { x := (MAKEPOINTS 0).x, y := (MAKEPOINTS 0).y }).x
              (sampleExternals.ScreenToClient
                ({ sampleContext with buffered_scroll_amount := .finite (1 / 2) } :
                  Context Nat).hwnd
                { x := (MAKEPOINTS 0).x, y := (MAKEPOINTS 0).y }).y).col))) ∧
      c.buffered_scroll_amount
        = .finite (3 - (if 0 < (3 : ℚ) then 1 else -1) * (⌊|(3 : ℚ)|⌋₊ : ℚ)) ∧
      |(3 : ℚ) - (if 0 < (3 : ℚ) then 1 else -1) * (⌊|(3 : ℚ)|⌋₊ : ℚ)| < 1 :=
  ⟨wheel_accumulator_three, by norm_num, by norm_num,
   mouse_wheel_drains_buffered_scroll sampleExternals
     { sampleContext with buffered_scroll_amount := .finite (1 / 2) } 19660800 0 3
     wheel_accumulator_three (by norm_num) 4 (by norm_num)⟩

end WindowTheorems

/-! ## Theorems: the command line -/

/-- C13, the code on two command lines. With the one pass-through argument
"a", `nvim_cmd_len` is 34 after the loop while the command built,
`nvim --embed "a"`, has 16 characters. With twelve pass-through arguments
"a", the twelfth is rejected with "File path too long": `nvim_cmd_len` has
grown to 45046 over the first eleven, while the command built so far has 56
characters, so that its length plus the argument's length plus 4 is 61. -/
theorem nvim_cmd_len_counts_bytes_after_first_argument :
    (wWinMain_command_line sampleLibrary defaultLocals
        ["nvy".toList, "a".toList]).rejected = false ∧
    (wWinMain_command_line sampleLibrary defaultLocals
        ["nvy".toList, "a".toList]).locals.nvim_cmd_len = 34 ∧
    wcslen (wWinMain_command_line sampleLibrary defaultLocals
        ["nvy".toList, "a".toList]).locals.nvim_cmd = 16 ∧
    (wWinMain_command_line sampleLibrary defaultLocals
        ("nvy".toList :: List.replicate 12 "a".toList)).rejected = true ∧
    (wWinMain_command_line sampleLibrary defaultLocals
        ("nvy".toList :: List.replicate 12 "a".toList)).locals.nvim_cmd_len = 45046 ∧
    wcslen (wWinMain_command_line sampleLibrary defaultLocals
        ("nvy".toList :: List.replicate 12 "a".toList)).locals.nvim_cmd
      + wcslen "a".toList + 4 = 61 := by
  decide

end Nvy
